import Mathlib

/-!
Shallow embedding of the NFC reader client for the ESP32 (`card_reader_nfc`,
`card_reader_wifi`, `card_reader_gpio`, `main`), and the properties proved about it.

Conventions of the embedding.

* A `uint8_t` array is a `List Nat`; a C string is the `List Char` of its characters
  before the terminating NUL.  Reading past the end of a list yields `0` (resp. NUL).
* A C function with output parameters returns the new contents of those parameters.
* The PN532 driver (`pn532.h`) and the HTTP client (`esp_http_client.h`) are not part of
  the sources: they are parameters of the model, given as functions over an abstract
  device state that is threaded through the calls.  A driver call writes only to the
  buffers it is passed.
* The C library functions `sprintf` and `strtol` are modelled after the C standard, for
  the conversions the sources use.
-/

namespace NfcReader

/-! ## card_reader_nfc.h -/

def READER_ID_LEN : Nat := 8
def CARD_ID_LEN : Nat := 8
def CARD_DATA_LEN : Nat := 32
def CARD_DATA_FIRST_BLOCK : Nat := 4

/-- The struct `log_data_t`: `cidLen`, `rid[READER_ID_LEN]`, `cid[CARD_ID_LEN]`,
`data[CARD_DATA_LEN]`. -/
structure log_data_t where
  cidLen : Nat
  rid : List Nat
  cid : List Nat
  data : List Nat
deriving DecidableEq, Repr

/-- The value `(uint32_t)-1`. -/
def UINT32_MINUS_ONE : Nat := 4294967295

/-! ## The PN532 driver, a parameter of the model -/

/-- The three driver calls used by the component, over a device state `σ`.
`readPassiveTargetID` yields, on success, the contents of the `uid` buffer and the
`uidLength` it stored; `mifareclassic_AuthenticateBlock` takes `uid`, `uidLen`,
`blockNumber`, `keyNumber`, `keyData`; `mifareclassic_ReadDataBlock` yields, on success,
the bytes it stored in the `data` buffer. -/
structure Pn532 (σ : Type) where
  readPassiveTargetID : σ → Option (List Nat × Nat) × σ
  mifareclassic_AuthenticateBlock : σ → List Nat → Nat → Nat → Nat → List Nat → Bool × σ
  mifareclassic_ReadDataBlock : σ → Nat → Option (List Nat) × σ

/-- A driver call together with its outcome. -/
inductive DriverEvent where
  | readId (ok : Bool)
  | auth (block : Nat) (ok : Bool)
  | read (block : Nat) (bytes : Option (List Nat))
deriving DecidableEq, Repr

/-- The same driver, recording every call and its outcome in a log kept next to the
device state. -/
def Pn532.traced {σ : Type} (pn : Pn532 σ) : Pn532 (σ × List DriverEvent) where
  readPassiveTargetID := fun st =>
    match pn.readPassiveTargetID st.1 with
    | (r, s) => (r, (s, st.2 ++ [DriverEvent.readId r.isSome]))
  mifareclassic_AuthenticateBlock := fun st uid uidLen block keyNumber keyData =>
    match pn.mifareclassic_AuthenticateBlock st.1 uid uidLen block keyNumber keyData with
    | (ok, s) => (ok, (s, st.2 ++ [DriverEvent.auth block ok]))
  mifareclassic_ReadDataBlock := fun st block =>
    match pn.mifareclassic_ReadDataBlock st.1 block with
    | (r, s) => (r, (s, st.2 ++ [DriverEvent.read block r]))

/-! ## card_reader_nfc.c -/

/-- The loop `for (i = 0; i < n; ++i) dst[off + i] = src[i];`. -/
def arrayCopy (dst src : List Nat) (off n : Nat) : List Nat :=
  (List.range n).foldl (fun d i => d.set (off + i) (src.getD i 0)) dst

/-- The loop `for (i = 0; i < n; ++i) dst[i] = v;`. -/
def arrayFill (dst : List Nat) (n v : Nat) : List Nat :=
  (List.range n).foldl (fun d i => d.set i v) dst

/-- A local array of `n` bytes before anything is stored in it (every use below
overwrites an entry before reading it). -/
def localArray (n : Nat) : List Nat := List.replicate n 0

/-- Embedding of `nfc_readCardId`: the card ID length, or `(uint32_t)-1` on failure. -/
def nfc_readCardId {σ : Type} (pn : Pn532 σ) (s : σ) (logData : log_data_t) :
    Nat × log_data_t × σ :=
  match pn.readPassiveTargetID s with
  | (some (uid, uidLength), s1) =>
      let logData1 := { logData with cid := uid, cidLen := uidLength % 256 }
      (logData1.cidLen, logData1, s1)
  | (none, s1) => (UINT32_MINUS_ONE, logData, s1)

/-- Embedding of `nfc_setReaderId`. -/
def nfc_setReaderId (logData : log_data_t) (id : List Nat) : log_data_t :=
  { logData with rid := arrayCopy logData.rid id 0 READER_ID_LEN }

/-- Embedding of `nfc_authReadBlock`: 0 = success, 1 = authentication failed,
2 = reading failed; the second component is `blockData` after the call. -/
def nfc_authReadBlock {σ : Type} (pn : Pn532 σ) (s : σ) (logData : log_data_t)
    (keyA : List Nat) (block : Nat) (blockData : List Nat) : Nat × List Nat × σ :=
  match pn.mifareclassic_AuthenticateBlock s logData.cid logData.cidLen block 0 keyA with
  | (false, s1) => (1, blockData, s1)
  | (true, s1) =>
    match pn.mifareclassic_ReadDataBlock s1 block with
    | (none, s2) => (2, blockData, s2)
    | (some bytes, s2) => (0, arrayCopy blockData bytes 0 16, s2)

/-- The block loop of `nfc_authReadData`, over the blocks still to be visited:
`none` is the early `return 1`, `some data` the local array `data` after the loop. -/
def nfc_authReadData.loop {σ : Type} (pn : Pn532 σ) (logData : log_data_t)
    (keyA : List Nat) (firstBlock : Nat) :
    List Nat → List Nat → σ → Option (List Nat) × σ
  | [], data, s => (some data, s)
  | b :: bs, data, s =>
    match nfc_authReadBlock pn s logData keyA b (localArray CARD_DATA_LEN) with
    | (0, block_data, s1) =>
        nfc_authReadData.loop pn logData keyA firstBlock bs
          (arrayCopy data block_data ((b - firstBlock) * 16) 16) s1
    | (_, _, s1) => (none, s1)

/-- The values the loop variable of `nfc_authReadData` takes, for a `uint32_t` value
`firstBlock`.  The bound `firstBlock + CARD_DATA_LEN / 16` is computed in `uint32_t` and
the loop variable `int b` is compared with it as a `uint32_t`: when the sum does not wrap
around, `b` runs over `firstBlock, ..., firstBlock + CARD_DATA_LEN / 16 - 1` (an `int` that
overflows wraps around, and `block` gets it back as a `uint32_t`); when the sum wraps
around, the bound is below `firstBlock` and the loop body is not run. -/
def nfc_authReadData.blocks (firstBlock : Nat) : List Nat :=
  if firstBlock + CARD_DATA_LEN / 16 < 4294967296 then
    List.range' firstBlock (CARD_DATA_LEN / 16)
  else []

/-- Embedding of `nfc_authReadData`: 0 = success, 1 = failed. -/
def nfc_authReadData {σ : Type} (pn : Pn532 σ) (s : σ) (logData : log_data_t)
    (keyA : List Nat) (firstBlock : Nat) : Nat × log_data_t × σ :=
  match nfc_authReadData.loop pn logData keyA firstBlock
      (nfc_authReadData.blocks firstBlock) (localArray CARD_DATA_LEN) s with
  | (none, s1) => (1, logData, s1)
  | (some data, s1) =>
      (0, { logData with data := arrayCopy logData.data data 0 CARD_DATA_LEN }, s1)

/-- Embedding of `nfc_initLogData`. -/
def nfc_initLogData (logData : log_data_t) : log_data_t :=
  { cidLen := 0
    rid := arrayFill logData.rid READER_ID_LEN 0
    cid := arrayFill logData.cid CARD_ID_LEN 0
    data := arrayFill logData.data CARD_DATA_LEN 0 }

/-- Embedding of `nfc_logCard`: 0 = success, 1 = reading ID failed, 2 = reading data
failed. -/
def nfc_logCard {σ : Type} (pn : Pn532 σ) (s : σ) (logData : log_data_t)
    (readerId keyA : List Nat) : Nat × log_data_t × σ :=
  let logData1 := nfc_setReaderId (nfc_initLogData logData) readerId
  match nfc_readCardId pn s logData1 with
  | (r, logData2, s1) =>
    if r = UINT32_MINUS_ONE then (1, logData2, s1)
    else
      match nfc_authReadData pn s1 logData2 keyA CARD_DATA_FIRST_BLOCK with
      | (r2, logData3, s2) => if r2 ≠ 0 then (2, logData3, s2) else (0, logData3, s2)

/-! ### Vocabulary for the runs of `nfc_logCard` -/

/-- The driver fails to authenticate block `b` with key `keyA` in some state. -/
def Pn532.authFails {σ : Type} (pn : Pn532 σ) (keyA : List Nat) (b : Nat) : Prop :=
  ∃ s uid len, (pn.mifareclassic_AuthenticateBlock s uid len b 0 keyA).1 = false

/-- The driver fails to read block `b` in some state. -/
def Pn532.readFails {σ : Type} (pn : Pn532 σ) (b : Nat) : Prop :=
  ∃ s, (pn.mifareclassic_ReadDataBlock s b).1 = none

/-- The driver fails to obtain a card identifier in some state. -/
def Pn532.idFails {σ : Type} (pn : Pn532 σ) : Prop :=
  ∃ s, (pn.readPassiveTargetID s).1 = none

/-- The payload built by `nfc_authReadData` from the bytes `d4`, `d5` returned by the two
reads: each read fills `block_data`, whose first 16 bytes go to `data` at offset
`(b - firstBlock) * 16`, and `data` is copied over the old payload `old`. -/
def payloadOf (old d4 d5 : List Nat) : List Nat :=
  arrayCopy old
    (arrayCopy (arrayCopy (localArray CARD_DATA_LEN)
        (arrayCopy (localArray CARD_DATA_LEN) d4 0 16) ((4 - 4) * 16) 16)
      (arrayCopy (localArray CARD_DATA_LEN) d5 0 16) ((5 - 4) * 16) 16) 0 CARD_DATA_LEN

/-- A `log_data_t` local variable before anything is stored in it: the arrays have
their declared sizes, the contents are arbitrary. -/
def log_data_t.stack : log_data_t :=
  { cidLen := 7, rid := List.replicate 8 9, cid := List.replicate 8 9,
    data := List.replicate 32 9 }

/-! ## Formatted output (`sprintf`), as used by `nfc_arrayToApiString` -/

/-- Lowercase hexadecimal digit of a value below 16. -/
def hexDigit (d : Nat) : Char :=
  if d < 10 then Char.ofNat (48 + d) else Char.ofNat (87 + d)

/-- The two characters printed by the conversion `%02hhx` for the argument `x`, which
`hh` converts to `unsigned char`. -/
def fmt_02hhx (x : Nat) : List Char :=
  [hexDigit (x % 256 / 16), hexDigit (x % 256 % 16)]

/-- The characters printed by `sprintf(dst, fmt)` called with a format and no further
argument: ordinary characters are copied, `%%` prints one `%`; any other conversion
specification would consume an argument that was not passed (undefined behaviour),
rendered as `none`. -/
def sprintf0 : List Char → Option (List Char)
  | [] => some []
  | [c] => if c = '%' then none else some [c]
  | c :: d :: t =>
    if c = '%' then
      if d = '%' then (sprintf0 t).map (fun r => '%' :: r) else none
    else (sprintf0 (d :: t)).map (fun r => c :: r)

/-- The statement `n += sprintf(&destination[n], ...)` printing the characters `out`:
the new value of `n` and the string held by `destination` afterwards. -/
def sprintfAt (st : Nat × List Char) (out : List Char) : Nat × List Char :=
  (st.1 + out.length, st.2.take st.1 ++ out)

/-- Embedding of `nfc_arrayToApiString`; a `NULL` prefix is `none`.  The result is the
string held by `destination` on return, `none` when a format passed to `sprintf` is
undefined.  (The calls of `nfc_logDataToApiString` pass `destination` itself as the prefix;
the prefix is then the string `destination` holds on entry.) -/
def nfc_arrayToApiString (pfx : Option (List Char)) (key : List Char) (array : List Nat)
    (arrayLen : Nat) (destination : List Char) : Option (List Char) := do
  let st0 : Nat × List Char := (0, destination)
  let st1 ← match pfx with
    | some p => do
        let st := sprintfAt st0 (← sprintf0 p)
        pure (sprintfAt st (← sprintf0 "&".toList))
    | none => pure st0
  let st2 := sprintfAt st1 (← sprintf0 key)
  let st3 := sprintfAt st2 (← sprintf0 "=0x".toList)
  pure ((List.range arrayLen).foldl
    (fun st i => sprintfAt st (fmt_02hhx (array.getD i 0))) st3).2

/-- Embedding of `nfc_logDataToApiString`. -/
def nfc_logDataToApiString (logData : log_data_t) (destination : List Char) :
    Option (List Char) := do
  let d1 ← nfc_arrayToApiString none "rid".toList logData.rid READER_ID_LEN destination
  let d2 ← nfc_arrayToApiString (some d1) "cid".toList logData.cid CARD_ID_LEN d1
  nfc_arrayToApiString (some d2) "data".toList logData.data CARD_DATA_LEN d2

/-! ### The format of the strings -/

/-- Two lowercase hexadecimal digits per byte, high nibble first, no separator. -/
def hexOf : List Nat → List Char
  | [] => []
  | x :: t => hexDigit (x % 256 / 16) :: hexDigit (x % 256 % 16) :: hexOf t

/-- The first `n` entries of an array, as the loop `for (i = 0; i < n; ++i)` reads them. -/
def firstN (n : Nat) (array : List Nat) : List Nat :=
  (List.range n).map (fun i => array.getD i 0)

/-- The text put in front of the key: the prefix and `&`, or nothing for a `NULL`
prefix. -/
def prefixAmp : Option (List Char) → List Char
  | some p => p ++ ['&']
  | none => []

/-! ## card_reader_wifi.h, card_reader_wifi.c -/

def MAX_HTTP_OUTPUT_BUFFER : Nat := 2048
def MAX_HTTP_URL_BUFFER : Nat := 500
def SERVER_ADDR : List Char := "server_url".toList

/-- The struct `http_response_t`. -/
structure http_response_t where
  apiCode : Nat
  apiMessage : List Char
deriving DecidableEq, Repr

/-- The NUL character, read at and after the end of a string. -/
def NUL : Char := Char.ofNat 0

/-- The C library predicate `isspace` in the "C" locale: space, `\t`, `\n`, `\v`, `\f`,
`\r`. -/
def isspace (c : Char) : Bool := c.toNat = 32 || (9 ≤ c.toNat && c.toNat ≤ 13)

/-- The C library predicate `isdigit`. -/
def isdigit (c : Char) : Bool := 48 ≤ c.toNat && c.toNat ≤ 57

def LONG_MAX : Int := 2147483647
def LONG_MIN : Int := -2147483648

/-- The text left after the white space and the optional sign that `strtol` skips, with
whether the sign was `-`. -/
def strtol.skipSign (nptr : List Char) : Bool × List Char :=
  match nptr.dropWhile isspace with
  | c :: t => if c = '-' then (true, t) else if c = '+' then (false, t) else (false, c :: t)
  | [] => (false, [])

/-- The value of a sequence of decimal digits. -/
def strtol.value (digits : List Char) : Nat :=
  digits.foldl (fun a c => 10 * a + (c.toNat - 48)) 0

/-- The C library function `strtol(nptr, &end, 10)` for the 32-bit `long` of the ESP32:
the value and the text `end` points to.  White space is skipped, then an optional sign,
then decimal digits are read; with no digit there is no conversion, the value is 0 and
`end` is `nptr`; a value out of range is clamped to `LONG_MIN` or `LONG_MAX`. -/
def strtol (nptr : List Char) : Int × List Char :=
  let neg := (strtol.skipSign nptr).1
  let body := (strtol.skipSign nptr).2
  let digits := body.takeWhile isdigit
  if digits = [] then (0, nptr)
  else
    let v : Int := if neg then -(strtol.value digits : Int) else (strtol.value digits : Int)
    (max LONG_MIN (min LONG_MAX v), body.dropWhile isdigit)

/-- Embedding of `wifi_parseApiCode`: the API code, or `(uint32_t)-1` if reading failed.
The `long` returned by `strtol` is converted to `uint32_t`. -/
def wifi_parseApiCode (buffer : List Char) : Nat :=
  if buffer.length < 6 then UINT32_MINUS_ONE
  else
    let ret := (strtol (buffer.drop 1)).1
    let e := (strtol (buffer.drop 1)).2
    if e.headD NUL = ' ' then (ret % 4294967296).toNat
    else UINT32_MINUS_ONE

/-- The placeholder message of `wifi_parseResponse`. -/
def UNREADABLE : List Char := "Ureadable response".toList

def ESP_OK : Int := 0

/-- Embedding of `wifi_parseResponse`; `statusCode` is what
`esp_http_client_get_status_code(client)` returns.  0 = success, 1 = request error,
2 = response error.  On success the message is the text from index 5 (`strcpy`) with its
last character replaced by NUL. -/
def wifi_parseResponse (response : http_response_t) (statusCode : Int)
    (buffer : List Char) (error : Int) : Nat × http_response_t :=
  if error = ESP_OK then
    if statusCode ≠ 200 then (2, response)
    else
      let apiCode := wifi_parseApiCode buffer
      if apiCode ≠ UINT32_MINUS_ONE then
        (0, { apiCode := apiCode, apiMessage := (buffer.drop 5).dropLast })
      else
        (0, { apiCode := apiCode, apiMessage := UNREADABLE })
  else (1, response)

/-- A response struct before anything is stored in it (contents arbitrary). -/
def http_response_t.stack : http_response_t := { apiCode := 7, apiMessage := "?".toList }

/-! ## card_reader_gpio.h -/

def LED_OFF : Nat := 0
def LED_RED : Nat := 1
def LED_GREEN : Nat := 2
def LED_ORANGE : Nat := 3

/-! ## The HTTP client, a parameter of the model -/

/-- The call `esp_http_client_perform` on a client configured with a URL, an optional
`Set-Cookie` header and the response buffer as `user_data`, over a network state `ν`: it
yields the `esp_err_t` result, the HTTP status code and the response buffer after the
call. -/
structure HttpClient (ν : Type) where
  perform : ν → List Char → Option (List Char) → List Char → (Int × Int × List Char) × ν

/-- Embedding of `wifi_httpsExchangeData`; a `NULL` string is `none`.  It yields the error
code (0 = success, 1 = request error, 2 = response error), the response struct and the
response buffer after the call. -/
def wifi_httpsExchangeData {ν : Type} (net : HttpClient ν) (n : ν)
    (response : http_response_t) (responseBuffer : List Char)
    (queryString readerKeyString : Option (List Char)) :
    (Nat × http_response_t × List Char) × ν :=
  let urlStr : List Char :=
    match queryString with
    | none => SERVER_ADDR
    | some q => if q = [] then SERVER_ADDR else SERVER_ADDR ++ q
  let cookie : Option (List Char) :=
    match readerKeyString with
    | none => none
    | some k => if k = [] then none else some k
  match net.perform n urlStr cookie responseBuffer with
  | ((err, status, buffer), n1) =>
    (((wifi_parseResponse response status buffer err).1,
      (wifi_parseResponse response status buffer err).2, buffer), n1)

/-! ## main.c -/

def ALIVE_MSG_INTERVAL_S : Nat := 10
def READER_KEY_LEN : Nat := 32

/-- The reader ID of `main.c`. -/
def rid : List Nat := [0x12, 0x34, 0x56, 0x78, 0x12, 0x34, 0x56, 0x78]

/-- The key A of `main.c`. -/
def keyA : List Nat := [0xFF, 0xFF, 0xFF, 0xFF, 0xFF, 0xFF]

/-- The two semaphores of `main.c`. -/
inductive Semaphore where
  | httpSemaphore
  | indLedSemaphore
deriving DecidableEq, Repr

/-- The actions of a task that other tasks or the user can observe, in program order.
`take s ok` is a call `xSemaphoreTake(s, portMAX_DELAY)` and whether it returned `pdTRUE`;
`exchange q k err code` is a call of `wifi_httpsExchangeData` with query string `q` and
key string `k`, the error code it returned and the `apiCode` it left in the response;
`delay ms` is `vTaskDelay(ms / portTICK_PERIOD_MS)`. -/
inductive Action where
  | take (s : Semaphore) (ok : Bool)
  | give (s : Semaphore)
  | exchange (q k : List Char) (err : Nat) (apiCode : Nat)
  | setIndicatorLed (state : Nat)
  | delay (ms : Nat)
deriving DecidableEq, Repr

/-- The state outside a task that its iteration reads and writes: the PN532 device, the
network and the global `responseBuffer`. -/
structure World (σ ν : Type) where
  nfc : σ
  net : ν
  responseBuffer : List Char
deriving DecidableEq

/-- One iteration of the loop of `cardReadTask`: the actions performed and the world after
them.  `rkey` is the global reader key, `takeHttp` and `takeLed` are what the two calls of
`xSemaphoreTake` return when they are reached.  `none` stands for an undefined `sprintf`
format in the string conversions. -/
def cardReadTask.iteration {σ ν : Type} (pn : Pn532 σ) (net : HttpClient ν)
    (rkey : List Nat) (takeHttp takeLed : Bool) (w : World σ ν) :
    Option (List Action × World σ ν) :=
  match nfc_logCard pn w.nfc log_data_t.stack rid keyA with
  | (r, logData, s1) =>
    if r ≠ 0 then some ([], { w with nfc := s1 })
    else
      match nfc_logDataToApiString logData [],
        nfc_arrayToApiString none "rkey".toList rkey READER_KEY_LEN [] with
      | some queryStr, some rkeyStr =>
        if takeHttp then
          match wifi_httpsExchangeData net w.net http_response_t.stack w.responseBuffer
              (some queryStr) (some rkeyStr) with
          | ((err, resp, buffer), n1) =>
            let w1 : World σ ν := { nfc := s1, net := n1, responseBuffer := buffer }
            let pre : List Action :=
              [Action.take Semaphore.httpSemaphore true,
                Action.exchange queryStr rkeyStr err resp.apiCode,
                Action.give Semaphore.httpSemaphore]
            if err ≠ 0 then
              some (pre ++
                [Action.setIndicatorLed LED_RED, Action.delay 200,
                  Action.setIndicatorLed LED_OFF, Action.delay 100,
                  Action.setIndicatorLed LED_RED, Action.delay 200,
                  Action.setIndicatorLed LED_OFF], w1)
            else if takeLed then
              some (pre ++
                [Action.take Semaphore.indLedSemaphore true,
                  Action.setIndicatorLed (if resp.apiCode = 100 then LED_GREEN else LED_RED),
                  Action.delay 500,
                  Action.setIndicatorLed LED_OFF,
                  Action.give Semaphore.indLedSemaphore], w1)
            else some (pre ++ [Action.take Semaphore.indLedSemaphore false], w1)
        else some ([Action.take Semaphore.httpSemaphore false], { w with nfc := s1 })
      | _, _ => none

/-- One iteration of the loop of `aliveTask`. -/
def aliveTask.iteration {σ ν : Type} (net : HttpClient ν) (rkey : List Nat)
    (takeHttp : Bool) (w : World σ ν) : Option (List Action × World σ ν) :=
  match nfc_arrayToApiString none "rkey".toList rkey READER_KEY_LEN [],
    nfc_arrayToApiString none "rid".toList rid READER_ID_LEN [] with
  | some rkeyStr, some queryStr =>
    if takeHttp then
      match wifi_httpsExchangeData net w.net http_response_t.stack w.responseBuffer
          (some queryStr) (some rkeyStr) with
      | ((err, resp, buffer), n1) =>
        some ([Action.delay (ALIVE_MSG_INTERVAL_S * 1000),
            Action.take Semaphore.httpSemaphore true,
            Action.exchange queryStr rkeyStr err resp.apiCode,
            Action.give Semaphore.httpSemaphore],
          { w with net := n1, responseBuffer := buffer })
    else
      some ([Action.delay (ALIVE_MSG_INTERVAL_S * 1000),
        Action.take Semaphore.httpSemaphore false], w)
  | _, _ => none

/-- One sample of the power state: what `gpio_isSourcePowered` and
`gpio_isBatteryCritical` return. -/
structure Sample where
  poweredExternally : Bool
  batteryCritical : Bool
deriving DecidableEq, Repr

/-- Where `batteryWarningTask` is: in its outer loop, or in the inner loop it enters after
taking the indicator semaphore. -/
inductive BatteryState where
  | Normal
  | Warning
deriving DecidableEq, Repr

/-- One sample taken by `batteryWarningTask`: the next state and the actions up to the
next sample.  In the outer loop the task enters the inner loop when the device is not
source powered and the battery is critical (and `xSemaphoreTake` returned `takeLed`); in
the inner loop it only reads `gpio_isSourcePowered`. -/
def batteryWarningTask.step (takeLed : Bool) :
    BatteryState → Sample → BatteryState × List Action
  | BatteryState.Normal, s =>
    if !s.poweredExternally && s.batteryCritical then
      if takeLed then
        (BatteryState.Warning,
          [Action.take Semaphore.indLedSemaphore true, Action.setIndicatorLed LED_ORANGE])
      else
        (BatteryState.Normal,
          [Action.take Semaphore.indLedSemaphore false, Action.delay 1000])
    else (BatteryState.Normal, [Action.delay 1000])
  | BatteryState.Warning, s =>
    if s.poweredExternally then
      (BatteryState.Normal,
        [Action.setIndicatorLed LED_OFF, Action.give Semaphore.indLedSemaphore,
          Action.delay 1000])
    else (BatteryState.Warning, [Action.delay 1000])

/-- The task run over a trace of samples, from a given state: the state reached and the
actions performed. -/
def batteryWarningTask.run (takeLed : Bool) :
    BatteryState → List Sample → BatteryState × List Action
  | st, [] => (st, [])
  | st, s :: rest =>
    ((batteryWarningTask.run takeLed (batteryWarningTask.step takeLed st s).1 rest).1,
      (batteryWarningTask.step takeLed st s).2 ++
        (batteryWarningTask.run takeLed (batteryWarningTask.step takeLed st s).1 rest).2)

/-- The task run over a trace of samples, each with what `xSemaphoreTake` returns if it is
called at that sample. -/
def batteryWarningTask.runWith :
    BatteryState → List (Bool × Sample) → BatteryState × List Action
  | st, [] => (st, [])
  | st, x :: rest =>
    ((batteryWarningTask.runWith (batteryWarningTask.step x.1 st x.2).1 rest).1,
      (batteryWarningTask.step x.1 st x.2).2 ++
        (batteryWarningTask.runWith (batteryWarningTask.step x.1 st x.2).1 rest).2)

/-! ### Key derivation and start-up -/

/-- The mbedtls message-digest calls of `generateReaderKey`, a parameter of the model:
the results of `mbedtls_md_setup`, of `mbedtls_md_hmac_starts` (key, key length) and of
`mbedtls_md_hmac_update` (input, input length), and the 32 bytes `mbedtls_md_hmac_finish`
stores for a key and an input. -/
structure MbedTls where
  md_setup : Int
  md_hmac_starts : List Nat → Nat → Int
  md_hmac_update : List Char → Nat → Int
  md_hmac_finish : List Nat → List Char → List Nat

/-- Embedding of `generateReaderKey`: the error code (0, or 2, 3, 4) and `destination`
after the call.  `seedLen` is `strlen(seed) - 1` in `size_t`. -/
def generateReaderKey (md : MbedTls) (readerId : List Nat) (seed : List Char)
    (destination : List Nat) : Nat × List Nat :=
  let seedLen : Nat := (seed.length + 4294967296 - 1) % 4294967296
  if md.md_setup ≠ 0 then (2, destination)
  else if md.md_hmac_starts readerId READER_ID_LEN ≠ 0 then (3, destination)
  else if md.md_hmac_update seed seedLen ≠ 0 then (4, destination)
  else (0, md.md_hmac_finish (firstN READER_ID_LEN readerId) (seed.take seedLen))

/-- The three tasks created by `app_main`. -/
inductive TaskId where
  | cardReadTask
  | aliveTask
  | batteryWarningTask
deriving DecidableEq, Repr

/-- The steps of `app_main`, in program order; `generateReaderKey ret` carries the error
code the call returned. -/
inductive BootAction where
  | gpio_setup
  | wifi_setup
  | nfc_setup
  | generateReaderKey (ret : Nat)
  | printReaderKeyInfo
  | semaphoreCreateBinary (s : Semaphore)
  | taskCreate (t : TaskId)
deriving DecidableEq, Repr

/-- Embedding of `app_main`: the steps performed and the global `rkey` after them.
`wifiOk` tells whether the `ESP_ERROR_CHECK`s of `wifi_setup` pass (the program aborts
otherwise), `nfcFound` whether `nfc_setup` finds the PN532 board (it loops forever
otherwise).  The value returned by `generateReaderKey` is not used. -/
def app_main (md : MbedTls) (seed : List Char) (wifiOk nfcFound : Bool) :
    List BootAction × List Nat :=
  if !wifiOk then ([BootAction.gpio_setup, BootAction.wifi_setup],
    List.replicate READER_KEY_LEN 0)
  else if !nfcFound then
    ([BootAction.gpio_setup, BootAction.wifi_setup, BootAction.nfc_setup],
      List.replicate READER_KEY_LEN 0)
  else
    ([BootAction.gpio_setup, BootAction.wifi_setup, BootAction.nfc_setup,
        BootAction.generateReaderKey
          (generateReaderKey md rid seed (List.replicate READER_KEY_LEN 0)).1,
        BootAction.printReaderKeyInfo,
        BootAction.semaphoreCreateBinary Semaphore.httpSemaphore,
        BootAction.semaphoreCreateBinary Semaphore.indLedSemaphore,
        BootAction.taskCreate TaskId.cardReadTask,
        BootAction.taskCreate TaskId.aliveTask,
        BootAction.taskCreate TaskId.batteryWarningTask],
      (generateReaderKey md rid seed (List.replicate READER_KEY_LEN 0)).2)

/-! ### The gates a task holds -/

/-- One flag per semaphore. -/
structure Gates where
  http : Bool
  indLed : Bool
deriving DecidableEq, Repr

/-- No gate. -/
def Gates.nothing : Gates := { http := false, indLed := false }

/-- Both gates. -/
def Gates.both : Gates := { http := true, indLed := true }

def Gates.get (g : Gates) : Semaphore → Bool
  | Semaphore.httpSemaphore => g.http
  | Semaphore.indLedSemaphore => g.indLed

def Gates.set (g : Gates) (s : Semaphore) (b : Bool) : Gates :=
  match s with
  | Semaphore.httpSemaphore => { g with http := b }
  | Semaphore.indLedSemaphore => { g with indLed := b }

/-- The gates a task holds after one of its actions, given those it held before: a
successful take adds the gate, a give removes it.  `none` when the action breaks the
discipline: a take of a gate the task already holds, or a give of a gate it does not
hold. -/
def Gates.step (g : Gates) : Action → Option Gates
  | Action.take s true => if g.get s then none else some (g.set s true)
  | Action.give s => if g.get s then some (g.set s false) else none
  | _ => some g

/-- The gates a task holds after a sequence of its actions. -/
def Gates.run : Gates → List Action → Option Gates
  | g, [] => some g
  | g, a :: rest =>
    match g.step a with
    | none => none
    | some g1 => Gates.run g1 rest

/-- Whether every `gpio_setIndicatorLed` of a sequence of actions of a task is performed
while the task holds the indicator gate. -/
def ledWritesUnderGate : Gates → List Action → Bool
  | _, [] => true
  | g, a :: rest =>
    (match a with
      | Action.setIndicatorLed _ => g.indLed
      | _ => true) &&
    ledWritesUnderGate ((g.step a).getD g) rest

/-- The gates `batteryWarningTask` holds in each of its states: none in the outer loop,
the indicator gate in the inner loop. -/
def BatteryState.gates : BatteryState → Gates
  | BatteryState.Normal => Gates.nothing
  | BatteryState.Warning => { http := false, indLed := true }

/-! ### The tasks running together -/

/-- One step of the two binary semaphores under an action of some task, on the flags that
tell which semaphore is available (FreeRTOS: `xSemaphoreTake` returns `pdTRUE` only for an
available semaphore and makes it unavailable; `xSemaphoreGive` makes it available).
`none` when the action cannot happen in that state. -/
def semaphoreStep (free : Gates) : Action → Option Gates
  | Action.take s true => if free.get s then some (free.set s false) else none
  | Action.give s => some (free.set s true)
  | _ => some free

/-- An interleaving of the tasks: a sequence of actions, each with the task performing it.
It runs from given semaphore flags to the flags after it, `none` when some step cannot
happen. -/
def semaphoreRun : Gates → List (TaskId × Action) → Option Gates
  | free, [] => some free
  | free, x :: rest =>
    match semaphoreStep free x.2 with
    | none => none
    | some free1 => semaphoreRun free1 rest

/-- The actions of one task in an interleaving. -/
def project (t : TaskId) (ex : List (TaskId × Action)) : List Action :=
  ex.filterMap (fun x => if x.1 = t then some x.2 else none)

/-- The action lists of the iterations of `cardReadTask`, for every driver, network, key,
semaphore outcome and world. -/
def IsCardReadIteration (acts : List Action) : Prop :=
  ∃ (σ ν : Type) (pn : Pn532 σ) (net : HttpClient ν) (rkey : List Nat)
    (takeHttp takeLed : Bool) (w w1 : World σ ν),
    cardReadTask.iteration pn net rkey takeHttp takeLed w = some (acts, w1)

/-- The action lists of the iterations of `aliveTask`. -/
def IsAliveIteration (acts : List Action) : Prop :=
  ∃ (σ ν : Type) (net : HttpClient ν) (rkey : List Nat) (takeHttp : Bool)
    (w w1 : World σ ν),
    aliveTask.iteration net rkey takeHttp w = some (acts, w1)

/-- What a task can have done so far: a beginning of a sequence of iterations of its loop
(for `batteryWarningTask`, of a run over samples from the start of its loop). -/
def TaskTrace : TaskId → List Action → Prop
  | TaskId.cardReadTask, acts =>
    ∃ chunks : List (List Action), (∀ c ∈ chunks, IsCardReadIteration c) ∧
      acts <+: chunks.flatten
  | TaskId.aliveTask, acts =>
    ∃ chunks : List (List Action), (∀ c ∈ chunks, IsAliveIteration c) ∧
      acts <+: chunks.flatten
  | TaskId.batteryWarningTask, acts =>
    ∃ xs : List (Bool × Sample),
      acts <+: (batteryWarningTask.runWith BatteryState.Normal xs).2

/-- The gates of the semaphore `s` held by task `t` after an interleaving, as told by the
task's own takes and gives. -/
def holds (t : TaskId) (s : Semaphore) (ex : List (TaskId × Action)) : Prop :=
  ∃ g, Gates.run Gates.nothing (project t ex) = some g ∧ g.get s = true

/-- Whether every exchange of a sequence of actions of a task is performed while the task
holds the channel gate. -/
def exchangesUnderGate : Gates → List Action → Bool
  | _, [] => true
  | g, a :: rest =>
    (match a with
      | Action.exchange _ _ _ _ => g.http
      | _ => true) &&
    exchangesUnderGate ((g.step a).getD g) rest

/-- The semaphore flags `free` and the gates `h` held by the tasks agree on exclusion: an
available semaphore is held by no task, and no semaphore is held by two tasks. -/
def Exclusive (free : Gates) (h : TaskId → Gates) : Prop :=
  ∀ s, (free.get s = true → ∀ t, (h t).get s = false) ∧
    (∀ t1 t2, (h t1).get s = true → (h t2).get s = true → t1 = t2)

/-! ## Concrete inputs -/

/-- A card for concrete runs: its identifier and, per block, whether authentication
succeeds and what a read returns. -/
structure Card where
  uid : Option (List Nat × Nat)
  authOk : Nat → Bool
  block : Nat → Option (List Nat)

/-- The stateless driver presenting a given card. -/
def Card.driver (c : Card) : Pn532 Unit where
  readPassiveTargetID := fun _ => (c.uid, ())
  mifareclassic_AuthenticateBlock := fun _ _ _ block _ _ => (c.authOk block, ())
  mifareclassic_ReadDataBlock := fun _ block => (c.block block, ())

/-- A card with identifier AA BB CC DD on which every block authenticates and reads;
block `b` holds the bytes `16 * b, ..., 16 * b + 15`. -/
def Card.good : Card :=
  { uid := some ([0xAA, 0xBB, 0xCC, 0xDD, 0, 0, 0, 0], 4)
    authOk := fun _ => true
    block := fun b => some (List.range' (16 * b) 16) }

/-- The same card, except that block 5 fails authentication. -/
def Card.authFailsAt5 : Card := { Card.good with authOk := fun b => b != 5 }

/-- The same card, except that block 4 fails to read. -/
def Card.readFailsAt4 : Card :=
  { Card.good with block := fun b => if b = 4 then none else some (List.range' (16 * b) 16) }

/-- The record `nfc_logCard` produces for the card `Card.good`. -/
def Card.goodRecord : log_data_t :=
  (nfc_logCard Card.good.driver () log_data_t.stack rid keyA).2.1

/-- A network whose every exchange succeeds with HTTP status 200 and a given body. -/
def HttpClient.replying (body : List Char) : HttpClient Unit where
  perform := fun _ _ _ _ => ((ESP_OK, 200, body), ())

/-- A sample reader key. -/
def rkey0 : List Nat := List.range' 100 32

/-- A world for concrete runs. -/
def World.start : World Unit Unit := { nfc := (), net := (), responseBuffer := [] }

/-- The query string of the record of `Card.good`. -/
def goodQuery : List Char :=
  ("rid=0x1234567812345678&cid=0xaabbccdd00000000&data=0x" ++
    "404142434445464748494a4b4c4d4e4f505152535455565758595a5b5c5d5e5f").toList

/-- The key string of `rkey0`. -/
def rkey0Str : List Char :=
  "rkey=0x6465666768696a6b6c6d6e6f707172737475767778797a7b7c7d7e7f80818283".toList

/-- The actions of an iteration of `cardReadTask` that reports the record of `Card.good`,
gets the code `c` and shows `led`. -/
def verdictActions (c led : Nat) : List Action :=
  [Action.take Semaphore.httpSemaphore true,
    Action.exchange goodQuery rkey0Str 0 c,
    Action.give Semaphore.httpSemaphore,
    Action.take Semaphore.indLedSemaphore true,
    Action.setIndicatorLed led,
    Action.delay 500,
    Action.setIndicatorLed LED_OFF,
    Action.give Semaphore.indLedSemaphore]

/-- A network on which every request fails (`ESP_FAIL`), leaving the buffer as it is. -/
def HttpClient.failing : HttpClient Unit where
  perform := fun _ _ _ rb => ((-1, 0, rb), ())

/-- A network that answers the malformed body `garbage` to the first request only: its
state tells whether a request has been made, and every later request gets `"100 OK"`. -/
def HttpClient.garbageOnce : HttpClient Bool where
  perform := fun served _ _ _ =>
    if served then ((ESP_OK, 200, "\"100 OK\"".toList), true)
    else ((ESP_OK, 200, "garbage".toList), true)

/-- A world over `HttpClient.garbageOnce` in which no request has been made. -/
def World.fresh : World Unit Bool := { nfc := (), net := false, responseBuffer := [] }

/-- An mbedtls whose `mbedtls_md_setup` fails with `MBEDTLS_ERR_MD_ALLOC_FAILED`. -/
def MbedTls.setupFails : MbedTls where
  md_setup := -20864
  md_hmac_starts := fun _ _ => 0
  md_hmac_update := fun _ _ => 0
  md_hmac_finish := fun _ _ => List.replicate 32 1

/-- The query string of the liveness report. -/
def aliveQuery : List Char := "rid=0x1234567812345678".toList

/-- The actions of an iteration of `cardReadTask` that reports the record of `Card.good`
over `HttpClient.failing`: the exchange returns 1 and the task flashes red twice. -/
def errorFlashActions : List Action :=
  [Action.take Semaphore.httpSemaphore true,
    Action.exchange goodQuery rkey0Str 1 7,
    Action.give Semaphore.httpSemaphore,
    Action.setIndicatorLed LED_RED, Action.delay 200,
    Action.setIndicatorLed LED_OFF, Action.delay 100,
    Action.setIndicatorLed LED_RED, Action.delay 200,
    Action.setIndicatorLed LED_OFF]

/-- The actions of a liveness report over a network that answers `"200 OK"`. -/
def aliveActions : List Action :=
  [Action.delay 10000, Action.take Semaphore.httpSemaphore true,
    Action.exchange aliveQuery rkey0Str 0 200, Action.give Semaphore.httpSemaphore]

/-- An interleaving: `cardReadTask` takes the channel gate, exchanges and gives the gate
while `aliveTask` waits; then `aliveTask` takes the gate. -/
def sampleInterleaving : List (TaskId × Action) :=
  [(TaskId.cardReadTask, Action.take Semaphore.httpSemaphore true),
    (TaskId.aliveTask, Action.delay 10000),
    (TaskId.cardReadTask, Action.exchange goodQuery rkey0Str 0 100),
    (TaskId.batteryWarningTask, Action.delay 1000),
    (TaskId.cardReadTask, Action.give Semaphore.httpSemaphore),
    (TaskId.aliveTask, Action.take Semaphore.httpSemaphore true)]
/-! # Theorems -/

/-! ## Arrays -/

theorem arrayCopy_length (dst src : List Nat) (off n : Nat) :
    (arrayCopy dst src off n).length = dst.length := by
  unfold arrayCopy
  induction n with
  | zero => rfl
  | succ n ih =>
    rw [List.range_succ, List.foldl_append]
    simp only [List.foldl_cons, List.foldl_nil, List.length_set]
    exact ih

theorem arrayCopy_getElem? (dst src : List Nat) (off n j : Nat) :
    (arrayCopy dst src off n)[j]? =
      if off ≤ j ∧ j < off + n ∧ j < dst.length then some (src.getD (j - off) 0)
      else dst[j]? := by
  induction n with
  | zero => rw [if_neg (by omega)]; rfl
  | succ n ih =>
    have hl := arrayCopy_length dst src off n
    unfold arrayCopy at ih hl ⊢
    rw [List.range_succ, List.foldl_append]
    simp only [List.foldl_cons, List.foldl_nil]
    rw [List.getElem?_set, ih, hl]
    by_cases h1 : off + n = j
    · subst h1
      by_cases h3 : off + n < dst.length
      · rw [if_pos rfl, if_pos h3, if_pos (by omega)]
        congr 2
        omega
      · rw [if_pos rfl, if_neg h3, if_neg (by omega)]
        exact (List.getElem?_eq_none (by omega)).symm
    · simp only [h1, if_false]
      by_cases h2 : off ≤ j ∧ j < off + n ∧ j < dst.length
      · rw [if_pos h2, if_pos (by omega)]
      · rw [if_neg h2, if_neg (by omega)]

theorem arrayCopy_eq (dst src : List Nat) (off n : Nat) (hd : off + n ≤ dst.length)
    (hs : n ≤ src.length) :
    arrayCopy dst src off n = dst.take off ++ (src.take n ++ dst.drop (off + n)) := by
  apply List.ext_getElem?
  intro j
  rw [arrayCopy_getElem?]
  by_cases h1 : j < off
  · rw [if_neg (by omega), List.getElem?_append_left (by simp; omega), List.getElem?_take_of_lt h1]
  · rw [List.getElem?_append_right (by simp; omega)]
    simp only [List.length_take]
    rw [Nat.min_eq_left (by omega)]
    by_cases h2 : j < off + n
    · rw [if_pos (by omega), List.getElem?_append_left (by simp; omega),
        List.getElem?_take_of_lt (by omega)]
      rw [List.getD_eq_getElem?_getD, List.getElem?_eq_getElem (by omega)]
      simp
    · rw [if_neg (by omega), List.getElem?_append_right (by simp; omega)]
      simp only [List.length_take, Nat.min_eq_left hs, List.getElem?_drop]
      congr 1
      omega

theorem arrayFill_eq (dst : List Nat) (n v : Nat) (h : dst.length = n) :
    arrayFill dst n v = List.replicate n v := by
  have key : ∀ m, m ≤ dst.length →
      (List.range m).foldl (fun d i => d.set i v) dst = List.replicate m v ++ dst.drop m := by
    intro m
    induction m with
    | zero => simp
    | succ m ih =>
      intro hm
      rw [List.range_succ, List.foldl_append, ih (by omega)]
      simp only [List.foldl_cons, List.foldl_nil]
      rw [List.set_append_right _ _ (by simp)]
      simp only [List.length_replicate, Nat.sub_self]
      rw [List.drop_eq_getElem_cons (by omega), List.set_cons_zero, List.replicate_succ',
        List.append_assoc]
      rfl
  unfold arrayFill
  rw [key n (by omega), ← h]
  simp

theorem payloadOf_eq (old d4 d5 : List Nat) (ho : old.length = CARD_DATA_LEN)
    (h4 : d4.length = 16) (h5 : d5.length = 16) : payloadOf old d4 d5 = d4 ++ d5 := by
  have hz : (List.replicate 32 0 : List Nat).drop 16 = List.replicate 16 0 := by decide
  have hb : ∀ d : List Nat, d.length = 16 →
      arrayCopy (List.replicate 32 0) d 0 16 = d ++ List.replicate 16 0 := by
    intro d hd
    rw [arrayCopy_eq _ _ 0 16 (by simp) (by omega), List.take_zero, List.nil_append,
      List.take_of_length_le (by omega), Nat.zero_add, hz]
  have ht : ∀ d : List Nat, d.length = 16 → (d ++ List.replicate 16 0).take 16 = d := by
    intro d hd
    rw [List.take_append_of_le_length (by omega), List.take_of_length_le (by omega)]
  have h1 : arrayCopy (List.replicate 32 0) (d4 ++ List.replicate 16 0) ((4 - 4) * 16) 16
      = d4 ++ List.replicate 16 0 := by
    rw [arrayCopy_eq _ _ _ 16 (by simp) (by simp), ht d4 h4]
    simp [hz]
  have h2 : arrayCopy (d4 ++ List.replicate 16 0) (d5 ++ List.replicate 16 0)
      ((5 - 4) * 16) 16 = d4 ++ d5 := by
    rw [arrayCopy_eq _ _ _ 16 (by simp [h4]) (by simp), ht d5 h5]
    have e : (5 - 4) * 16 = 16 := by norm_num
    rw [e, ht d4 h4, List.drop_of_length_le (by simp [h4]), List.append_nil]
  have ho32 : old.length = 32 := ho
  have h3 : arrayCopy old (d4 ++ d5) 0 32 = d4 ++ d5 := by
    rw [arrayCopy_eq _ _ 0 32 (by omega) (by simp [h4, h5]), List.take_zero, List.nil_append,
      List.take_of_length_le (by simp [h4, h5]), List.drop_of_length_le (by omega),
      List.append_nil]
  unfold payloadOf localArray CARD_DATA_LEN
  rw [hb d4 h4, hb d5 h5, h1, h2, h3]

/-! ## Runs of `nfc_logCard` -/

theorem nfc_authReadBlock_traced_cases {σ : Type} (pn : Pn532 σ) (s : σ)
    (l : List DriverEvent) (logData : log_data_t) (keyA : List Nat) (b : Nat)
    (bd : List Nat) :
    (∃ s1, pn.authFails keyA b ∧ nfc_authReadBlock pn.traced (s, l) logData keyA b bd
        = (1, bd, (s1, l ++ [DriverEvent.auth b false]))) ∨
    (∃ s1, pn.readFails b ∧ nfc_authReadBlock pn.traced (s, l) logData keyA b bd
        = (2, bd, (s1, l ++ [DriverEvent.auth b true, DriverEvent.read b none]))) ∨
    (∃ s1 bytes, nfc_authReadBlock pn.traced (s, l) logData keyA b bd
        = (0, arrayCopy bd bytes 0 16,
            (s1, l ++ [DriverEvent.auth b true, DriverEvent.read b (some bytes)]))) := by
  rcases h1 : pn.mifareclassic_AuthenticateBlock s logData.cid logData.cidLen b 0 keyA
    with ⟨_ | _, s1⟩
  · left
    exact ⟨s1, ⟨s, logData.cid, logData.cidLen, by rw [h1]⟩,
      by simp [nfc_authReadBlock, Pn532.traced, h1]⟩
  · right
    rcases h2 : pn.mifareclassic_ReadDataBlock s1 b with ⟨_ | bytes, s2⟩
    · left
      exact ⟨s2, ⟨s1, by rw [h2]⟩, by simp [nfc_authReadBlock, Pn532.traced, h1, h2]⟩
    · right; exact ⟨s2, bytes, by simp [nfc_authReadBlock, Pn532.traced, h1, h2]⟩

theorem nfc_authReadData_traced_cases {σ : Type} (pn : Pn532 σ) (s : σ)
    (l : List DriverEvent) (logData : log_data_t) (keyA : List Nat) :
    (∃ s1, pn.authFails keyA 4 ∧
      nfc_authReadData pn.traced (s, l) logData keyA CARD_DATA_FIRST_BLOCK
        = (1, logData, (s1, l ++ [DriverEvent.auth 4 false]))) ∨
    (∃ s1, pn.readFails 4 ∧
      nfc_authReadData pn.traced (s, l) logData keyA CARD_DATA_FIRST_BLOCK
        = (1, logData, (s1, l ++ [DriverEvent.auth 4 true, DriverEvent.read 4 none]))) ∨
    (∃ s1 d4, pn.authFails keyA 5 ∧
      nfc_authReadData pn.traced (s, l) logData keyA CARD_DATA_FIRST_BLOCK
        = (1, logData, (s1, l ++ [DriverEvent.auth 4 true, DriverEvent.read 4 (some d4),
            DriverEvent.auth 5 false]))) ∨
    (∃ s1 d4, pn.readFails 5 ∧
      nfc_authReadData pn.traced (s, l) logData keyA CARD_DATA_FIRST_BLOCK
        = (1, logData, (s1, l ++ [DriverEvent.auth 4 true, DriverEvent.read 4 (some d4),
            DriverEvent.auth 5 true, DriverEvent.read 5 none]))) ∨
    (∃ s1 d4 d5, nfc_authReadData pn.traced (s, l) logData keyA CARD_DATA_FIRST_BLOCK
        = (0, { logData with data := payloadOf logData.data d4 d5 },
            (s1, l ++ [DriverEvent.auth 4 true, DriverEvent.read 4 (some d4),
            DriverEvent.auth 5 true, DriverEvent.read 5 (some d5)]))) := by
  have hr : nfc_authReadData.blocks CARD_DATA_FIRST_BLOCK = [4, 5] := by decide
  unfold nfc_authReadData
  rw [hr]
  simp only [nfc_authReadData.loop]
  rcases nfc_authReadBlock_traced_cases pn s l logData keyA 4 (localArray CARD_DATA_LEN)
    with ⟨s1, hf, h⟩ | ⟨s1, hf, h⟩ | ⟨s1, d4, h⟩
  · left; exact ⟨s1, hf, by rw [h]⟩
  · right; left; exact ⟨s1, hf, by rw [h]⟩
  · right; right
    rw [h]
    simp only []
    rcases nfc_authReadBlock_traced_cases pn s1
        (l ++ [DriverEvent.auth 4 true, DriverEvent.read 4 (some d4)]) logData keyA 5
        (localArray CARD_DATA_LEN) with ⟨s2, hf, h2⟩ | ⟨s2, hf, h2⟩ | ⟨s2, d5, h2⟩
    · left; exact ⟨s2, d4, hf, by rw [h2]; simp⟩
    · right; left; exact ⟨s2, d4, hf, by rw [h2]; simp⟩
    · right; right; exact ⟨s2, d4, d5, by rw [h2]; simp [payloadOf, CARD_DATA_FIRST_BLOCK]⟩

/-- Every run of `nfc_logCard` over a recording driver is one of six: no card ID; block 4
fails authentication or reading; block 5 fails authentication or reading; or everything
succeeds.  In the five failing runs the payload is what `nfc_initLogData` left. -/
theorem nfc_logCard_traced_cases {σ : Type} (pn : Pn532 σ) (s : σ) (logData : log_data_t)
    (readerId keyA : List Nat) :
    (∃ s1 ld, pn.idFails ∧ nfc_logCard pn.traced (s, []) logData readerId keyA
        = (1, ld, (s1, [DriverEvent.readId false]))
        ∧ ld.data = arrayFill logData.data CARD_DATA_LEN 0) ∨
    (∃ s1 ld, pn.authFails keyA 4 ∧ nfc_logCard pn.traced (s, []) logData readerId keyA
        = (2, ld, (s1, [DriverEvent.readId true, DriverEvent.auth 4 false]))
        ∧ ld.data = arrayFill logData.data CARD_DATA_LEN 0) ∨
    (∃ s1 ld, pn.readFails 4 ∧ nfc_logCard pn.traced (s, []) logData readerId keyA
        = (2, ld, (s1, [DriverEvent.readId true, DriverEvent.auth 4 true,
            DriverEvent.read 4 none]))
        ∧ ld.data = arrayFill logData.data CARD_DATA_LEN 0) ∨
    (∃ s1 ld d4, pn.authFails keyA 5 ∧ nfc_logCard pn.traced (s, []) logData readerId keyA
        = (2, ld, (s1, [DriverEvent.readId true, DriverEvent.auth 4 true,
            DriverEvent.read 4 (some d4), DriverEvent.auth 5 false]))
        ∧ ld.data = arrayFill logData.data CARD_DATA_LEN 0) ∨
    (∃ s1 ld d4, pn.readFails 5 ∧ nfc_logCard pn.traced (s, []) logData readerId keyA
        = (2, ld, (s1, [DriverEvent.readId true, DriverEvent.auth 4 true,
            DriverEvent.read 4 (some d4), DriverEvent.auth 5 true, DriverEvent.read 5 none]))
        ∧ ld.data = arrayFill logData.data CARD_DATA_LEN 0) ∨
    (∃ s1 ld d4 d5, nfc_logCard pn.traced (s, []) logData readerId keyA
        = (0, ld, (s1, [DriverEvent.readId true, DriverEvent.auth 4 true,
            DriverEvent.read 4 (some d4), DriverEvent.auth 5 true,
            DriverEvent.read 5 (some d5)]))
        ∧ ld.data = payloadOf (arrayFill logData.data CARD_DATA_LEN 0) d4 d5) := by
  rcases h0 : pn.readPassiveTargetID s with ⟨_ | ⟨uid, len⟩, s1⟩
  · left
    refine ⟨s1, nfc_setReaderId (nfc_initLogData logData) readerId, ⟨s, by rw [h0]⟩, ?_, ?_⟩
    · simp [nfc_logCard, nfc_readCardId, Pn532.traced, h0]
    · simp [nfc_setReaderId, nfc_initLogData]
  · right
    have hne : ¬ (len % 256 = UINT32_MINUS_ONE) := by unfold UINT32_MINUS_ONE; omega
    generalize hld : ({ nfc_setReaderId (nfc_initLogData logData) readerId with
            cid := uid, cidLen := len % 256 } : log_data_t) = ld1
    have hdata : ld1.data = arrayFill logData.data CARD_DATA_LEN 0 := by
      rw [← hld]; simp [nfc_setReaderId, nfc_initLogData]
    have hrun : nfc_logCard pn.traced (s, []) logData readerId keyA =
        match nfc_authReadData pn.traced (s1, [DriverEvent.readId true]) ld1 keyA
          CARD_DATA_FIRST_BLOCK with
        | (r2, logData3, s2) => if r2 ≠ 0 then (2, logData3, s2) else (0, logData3, s2) := by
      rw [← hld]
      simp [nfc_logCard, nfc_readCardId, Pn532.traced, h0, hne]
    rw [hrun]
    rcases nfc_authReadData_traced_cases pn s1 [DriverEvent.readId true] ld1 keyA
      with ⟨s2, hf, h⟩ | ⟨s2, hf, h⟩ | ⟨s2, d4, hf, h⟩ | ⟨s2, d4, hf, h⟩ | ⟨s2, d4, d5, h⟩
    · left; exact ⟨s2, ld1, hf, by rw [h]; simp, hdata⟩
    · right; left; exact ⟨s2, ld1, hf, by rw [h]; simp, hdata⟩
    · right; right; left; exact ⟨s2, ld1, d4, hf, by rw [h]; simp, hdata⟩
    · right; right; right; left; exact ⟨s2, ld1, d4, hf, by rw [h]; simp, hdata⟩
    · right; right; right; right
      exact ⟨s2, { ld1 with data := payloadOf ld1.data d4 d5 }, d4, d5, by rw [h]; simp,
        by rw [hdata]⟩

theorem nfc_authReadBlock_traced_eq {σ : Type} (pn : Pn532 σ) (s : σ)
    (l : List DriverEvent) (logData : log_data_t) (keyA : List Nat) (b : Nat)
    (bd : List Nat) :
    ∃ l1, nfc_authReadBlock pn.traced (s, l) logData keyA b bd =
      ((nfc_authReadBlock pn s logData keyA b bd).1,
        (nfc_authReadBlock pn s logData keyA b bd).2.1,
        ((nfc_authReadBlock pn s logData keyA b bd).2.2, l1)) := by
  rcases h1 : pn.mifareclassic_AuthenticateBlock s logData.cid logData.cidLen b 0 keyA
    with ⟨_ | _, s1⟩
  · exact ⟨_, by simp [nfc_authReadBlock, Pn532.traced, h1]; rfl⟩
  · rcases h2 : pn.mifareclassic_ReadDataBlock s1 b with ⟨_ | bytes, s2⟩
    · exact ⟨_, by simp [nfc_authReadBlock, Pn532.traced, h1, h2]; rfl⟩
    · exact ⟨_, by simp [nfc_authReadBlock, Pn532.traced, h1, h2]; rfl⟩

theorem nfc_authReadData_loop_traced_eq {σ : Type} (pn : Pn532 σ) (logData : log_data_t)
    (keyA : List Nat) (firstBlock : Nat) (bs : List Nat) :
    ∀ (data : List Nat) (s : σ) (l : List DriverEvent),
    ∃ l1, nfc_authReadData.loop pn.traced logData keyA firstBlock bs data (s, l) =
      ((nfc_authReadData.loop pn logData keyA firstBlock bs data s).1,
        ((nfc_authReadData.loop pn logData keyA firstBlock bs data s).2, l1)) := by
  induction bs with
  | nil => intro data s l; exact ⟨l, rfl⟩
  | cons b bs ih =>
    intro data s l
    obtain ⟨l1, h1⟩ := nfc_authReadBlock_traced_eq pn s l logData keyA b
      (localArray CARD_DATA_LEN)
    simp only [nfc_authReadData.loop]
    rw [h1]
    rcases hr : nfc_authReadBlock pn s logData keyA b (localArray CARD_DATA_LEN)
      with ⟨c, bd, s1⟩
    rcases c with _ | c
    · simp only []
      exact ih _ s1 l1
    · exact ⟨l1, rfl⟩

theorem nfc_authReadData_traced_eq {σ : Type} (pn : Pn532 σ) (s : σ)
    (l : List DriverEvent) (logData : log_data_t) (keyA : List Nat) (firstBlock : Nat) :
    ∃ l1, nfc_authReadData pn.traced (s, l) logData keyA firstBlock =
      ((nfc_authReadData pn s logData keyA firstBlock).1,
        (nfc_authReadData pn s logData keyA firstBlock).2.1,
        ((nfc_authReadData pn s logData keyA firstBlock).2.2, l1)) := by
  obtain ⟨l1, h1⟩ := nfc_authReadData_loop_traced_eq pn logData keyA firstBlock
    (nfc_authReadData.blocks firstBlock) (localArray CARD_DATA_LEN) s l
  unfold nfc_authReadData
  rw [h1]
  rcases nfc_authReadData.loop pn logData keyA firstBlock
      (nfc_authReadData.blocks firstBlock) (localArray CARD_DATA_LEN) s
    with ⟨_ | data, s1⟩
  · exact ⟨l1, rfl⟩
  · exact ⟨l1, rfl⟩

theorem nfc_logCard_traced_eq {σ : Type} (pn : Pn532 σ) (s : σ) (l : List DriverEvent)
    (logData : log_data_t) (readerId keyA : List Nat) :
    ∃ l1, nfc_logCard pn.traced (s, l) logData readerId keyA =
      ((nfc_logCard pn s logData readerId keyA).1,
        (nfc_logCard pn s logData readerId keyA).2.1,
        ((nfc_logCard pn s logData readerId keyA).2.2, l1)) := by
  rcases h0 : pn.readPassiveTargetID s with ⟨_ | ⟨uid, len⟩, s1⟩
  · exact ⟨_, by simp [nfc_logCard, nfc_readCardId, Pn532.traced, h0]; rfl⟩
  · have hne : ¬ (len % 256 = UINT32_MINUS_ONE) := by unfold UINT32_MINUS_ONE; omega
    generalize hld : ({ nfc_setReaderId (nfc_initLogData logData) readerId with
            cid := uid, cidLen := len % 256 } : log_data_t) = ld1
    obtain ⟨l1, h1⟩ := nfc_authReadData_traced_eq pn s1 (l ++ [DriverEvent.readId true]) ld1
      keyA CARD_DATA_FIRST_BLOCK
    have hrun : nfc_logCard pn.traced (s, l) logData readerId keyA =
        match nfc_authReadData pn.traced (s1, l ++ [DriverEvent.readId true]) ld1 keyA
          CARD_DATA_FIRST_BLOCK with
        | (r2, logData3, s2) => if r2 ≠ 0 then (2, logData3, s2) else (0, logData3, s2) := by
      rw [← hld]
      simp [nfc_logCard, nfc_readCardId, Pn532.traced, h0, hne]
    have hrun2 : nfc_logCard pn s logData readerId keyA =
        match nfc_authReadData pn s1 ld1 keyA CARD_DATA_FIRST_BLOCK with
        | (r2, logData3, s2) => if r2 ≠ 0 then (2, logData3, s2) else (0, logData3, s2) := by
      rw [← hld]
      simp [nfc_logCard, nfc_readCardId, h0, hne]
    rw [hrun, hrun2, h1]
    rcases nfc_authReadData pn s1 ld1 keyA CARD_DATA_FIRST_BLOCK with ⟨c, ld2, s2⟩
    refine ⟨l1, ?_⟩
    by_cases hc : c = 0
    · simp [hc]
    · simp [hc]

/-! ## The string conversions -/

theorem sprintf0_of_no_percent (s : List Char) (h : '%' ∉ s) : sprintf0 s = some s := by
  induction s with
  | nil => rfl
  | cons c t ih =>
    have hc : c ≠ '%' := fun e => h (by simp [e])
    have ht : '%' ∉ t := fun e => h (by simp [e])
    cases t with
    | nil => rw [sprintf0, if_neg hc]
    | cons d t2 => rw [sprintf0, if_neg hc, ih ht]; rfl

theorem hexOf_append (l : List Nat) (x : Nat) : hexOf (l ++ [x]) = hexOf l ++ fmt_02hhx x := by
  induction l with
  | nil => rfl
  | cons y t ih => simp [hexOf, ih]

theorem hexOf_length (l : List Nat) : (hexOf l).length = 2 * l.length := by
  induction l with
  | nil => rfl
  | cons y t ih => simp [hexOf, ih]; omega

/-- Characters `2 * i` and `2 * i + 1` of the hexadecimal text are the high and the low
digit of byte `i`. -/
theorem hexOf_digits (l : List Nat) :
    ∀ (i : Nat) (h : i < l.length),
      (hexOf l)[2 * i]? = some (hexDigit (l[i] % 256 / 16)) ∧
      (hexOf l)[2 * i + 1]? = some (hexDigit (l[i] % 256 % 16)) := by
  induction l with
  | nil => intro i h; simp at h
  | cons x t ih =>
    intro i h
    cases i with
    | zero => simp [hexOf]
    | succ j =>
      have hj : j < t.length := by simpa using h
      have e1 : 2 * (j + 1) = 2 * j + 1 + 1 := by omega
      rw [e1]
      simp only [hexOf, List.getElem?_cons_succ, List.getElem_cons_succ]
      exact ih j hj

/-- The hexadecimal text of an array contains no `%`. -/
theorem hexOf_no_percent (l : List Nat) : '%' ∉ hexOf l := by
  induction l with
  | nil => simp [hexOf]
  | cons x t ih =>
    have hx : ∀ d, d < 16 → hexDigit d ≠ '%' := by
      intro d hd; interval_cases d <;> decide
    simp only [hexOf, List.mem_cons, not_or]
    exact ⟨(hx _ (by omega)).symm, (hx _ (by omega)).symm, ih⟩

theorem hexOf_aabbccdd (t : List Nat) :
    hexOf (0xAA :: 0xBB :: 0xCC :: 0xDD :: t) = "aabbccdd".toList ++ hexOf t := by
  have h : hexOf [0xAA, 0xBB, 0xCC, 0xDD] = "aabbccdd".toList := by decide
  have e : ∀ a b : List Nat, hexOf (a ++ b) = hexOf a ++ hexOf b := by
    intro a b
    induction a with
    | nil => rfl
    | cons x a ih => simp [hexOf, ih]
  have := e [0xAA, 0xBB, 0xCC, 0xDD] t
  rw [h] at this
  exact this

theorem firstN_length (n : Nat) (array : List Nat) : (firstN n array).length = n := by
  simp [firstN]

theorem firstN_length_self (array : List Nat) : firstN array.length array = array := by
  apply List.ext_getElem
  · simp [firstN]
  · intro i h1 h2
    simp [firstN, List.getElem?_eq_getElem h2]

theorem firstN_succ (n : Nat) (array : List Nat) :
    firstN (n + 1) array = firstN n array ++ [array.getD n 0] := by
  simp [firstN, List.range_succ]

/-- Printing at the end of the string held so far appends to it. -/
theorem sprintfAt_end (l out : List Char) :
    sprintfAt (l.length, l) out = ((l ++ out).length, l ++ out) := by
  unfold sprintfAt
  rw [List.take_length, List.length_append]

theorem hexLoop_eq (array : List Nat) (n : Nat) (st : Nat × List Char)
    (hst : st.1 = st.2.length) :
    (List.range n).foldl (fun st i => sprintfAt st (fmt_02hhx (array.getD i 0))) st
      = ((st.2 ++ hexOf (firstN n array)).length, st.2 ++ hexOf (firstN n array)) := by
  induction n with
  | zero =>
    obtain ⟨a, b⟩ := st
    simp only at hst
    subst hst
    simp [firstN, hexOf]
  | succ n ih =>
    rw [List.range_succ, List.foldl_append, ih]
    simp only [List.foldl_cons, List.foldl_nil]
    rw [sprintfAt_end, firstN_succ, hexOf_append, List.append_assoc]

theorem nfc_arrayToApiString_eq (pfx : Option (List Char)) (key : List Char)
    (array : List Nat) (arrayLen : Nat) (destination : List Char)
    (hk : '%' ∉ key) (hp : ∀ p, pfx = some p → '%' ∉ p) :
    nfc_arrayToApiString pfx key array arrayLen destination
      = some (prefixAmp pfx ++ key ++ "=0x".toList ++ hexOf (firstN arrayLen array)) := by
  have h1 : sprintf0 "&".toList = some "&".toList := by decide
  have h2 : sprintf0 "=0x".toList = some "=0x".toList := by decide
  have h0 : ∀ out, sprintfAt (0, destination) out = (([] ++ out).length, [] ++ out) := by
    intro out; simp [sprintfAt]
  cases pfx with
  | none =>
    simp only [nfc_arrayToApiString, sprintf0_of_no_percent key hk, h2, bind, Option.bind,
      pure]
    simp only [h0, sprintfAt_end]
    rw [hexLoop_eq _ _ _ rfl]
    simp [prefixAmp]
  | some p =>
    simp only [nfc_arrayToApiString, sprintf0_of_no_percent key hk,
      sprintf0_of_no_percent p (hp p rfl), h1, h2, bind, Option.bind, pure]
    simp only [h0, sprintfAt_end]
    rw [hexLoop_eq _ _ _ rfl]
    simp [prefixAmp]

/-- The string conversions of the tasks never hit an undefined format: the conversion of
a record always yields a string. -/
theorem nfc_logDataToApiString_isSome (logData : log_data_t) (destination : List Char) :
    ∃ out, nfc_logDataToApiString logData destination = some out := by
  have hex := hexOf_no_percent
  have k1 : '%' ∉ "rid".toList := by decide
  have k2 : '%' ∉ "cid".toList := by decide
  have k3 : '%' ∉ "data".toList := by decide
  simp only [nfc_logDataToApiString, bind, Option.bind]
  rw [nfc_arrayToApiString_eq none _ _ _ _ k1 (by simp)]
  simp only []
  rw [nfc_arrayToApiString_eq (some _) _ _ _ _ k2 (by
    intro p hp; cases hp
    simp only [prefixAmp, List.mem_append, not_or, List.nil_append]
    exact ⟨⟨by decide, by decide⟩, hex _⟩)]
  simp only []
  rw [nfc_arrayToApiString_eq (some _) _ _ _ _ k3 (by
    intro p hp; cases hp
    simp only [prefixAmp, List.mem_append, not_or, List.nil_append]
    exact ⟨⟨⟨⟨⟨⟨by decide, by decide⟩, hex _⟩, by decide⟩, by decide⟩, by decide⟩, hex _⟩)]
  exact ⟨_, rfl⟩

/-! ## `strtol` -/

theorem dropWhile_isspace_append (ws rest : List Char) (hws : ∀ c ∈ ws, isspace c = true)
    (hr : isspace (rest.headD NUL) = false) : (ws ++ rest).dropWhile isspace = rest := by
  induction ws with
  | nil =>
    cases rest with
    | nil => rfl
    | cons c t =>
      simp only [List.headD_cons] at hr
      simp [List.dropWhile, hr]
  | cons w ws ih =>
    have hw : isspace w = true := hws w (by simp)
    simp only [List.cons_append, List.dropWhile, hw]
    exact ih (fun c hc => hws c (by simp [hc]))

theorem takeWhile_isdigit_append (ds rest : List Char) (hds : ∀ c ∈ ds, isdigit c = true)
    (hr : isdigit (rest.headD NUL) = false) :
    (ds ++ rest).takeWhile isdigit = ds ∧ (ds ++ rest).dropWhile isdigit = rest := by
  induction ds with
  | nil =>
    cases rest with
    | nil => exact ⟨rfl, rfl⟩
    | cons c t =>
      simp only [List.headD_cons] at hr
      simp [List.takeWhile, List.dropWhile, hr]
  | cons w ws ih =>
    have hw : isdigit w = true := hds w (by simp)
    have h2 := ih (fun c hc => hds c (by simp [hc]))
    refine ⟨?_, ?_⟩
    · rw [List.cons_append, List.takeWhile_cons, hw]
      simp only [if_true]
      rw [h2.1]
    · rw [List.cons_append, List.dropWhile_cons, hw]
      simp only [if_true]
      exact h2.2

/-- What `strtol` does on white space, an optional sign and a non-empty digit sequence
followed by a text that does not start with a digit. -/
theorem strtol_number (ws ds rest : List Char) (neg : Bool) (sgn : List Char)
    (hws : ∀ c ∈ ws, isspace c = true)
    (hsgn : (neg = true ∧ sgn = ['-']) ∨ (neg = false ∧ (sgn = ['+'] ∨ sgn = [])))
    (hne : ds ≠ []) (hds : ∀ c ∈ ds, isdigit c = true)
    (hr : isdigit (rest.headD NUL) = false) :
    strtol (ws ++ sgn ++ ds ++ rest) =
      (max LONG_MIN (min LONG_MAX
        (if neg then -(strtol.value ds : Int) else (strtol.value ds : Int))), rest) := by
  obtain ⟨d, ds1, rfl⟩ := List.exists_cons_of_ne_nil hne
  have hd : isdigit d = true := hds d (by simp)
  have hdt : 48 ≤ d.toNat ∧ d.toNat ≤ 57 := by simpa [isdigit] using hd
  have hdsp : isspace d = false := by
    simp only [isspace, Bool.or_eq_false_iff, decide_eq_false_iff_not, Bool.and_eq_false_imp,
      decide_eq_true_eq]
    omega
  have hdm : d ≠ '-' := by intro e; rw [e] at hdt; revert hdt; decide
  have hdp : d ≠ '+' := by intro e; rw [e] at hdt; revert hdt; decide
  have hskip : strtol.skipSign (ws ++ sgn ++ (d :: ds1) ++ rest) = (neg, (d :: ds1) ++ rest) := by
    unfold strtol.skipSign
    rw [List.append_assoc, List.append_assoc,
      dropWhile_isspace_append ws (sgn ++ ((d :: ds1) ++ rest)) hws
        (by
          rcases hsgn with ⟨_, rfl⟩ | ⟨_, rfl | rfl⟩
          · exact (by decide : isspace '-' = false)
          · exact (by decide : isspace '+' = false)
          · exact hdsp)]
    rcases hsgn with ⟨rfl, rfl⟩ | ⟨rfl, rfl | rfl⟩
    · simp
    · simp
    · simp [hdm, hdp]
  have htw := takeWhile_isdigit_append (d :: ds1) rest hds hr
  unfold strtol
  rw [hskip]
  simp only [htw.1, htw.2]
  simp

/-- What `strtol` does when, after white space and an optional sign, no digit follows:
nothing is converted and `end` is the start of the text. -/
theorem strtol_no_number (ws sgn rest : List Char)
    (hws : ∀ c ∈ ws, isspace c = true) (hsgn : sgn = [] ∨ sgn = ['+'] ∨ sgn = ['-'])
    (hr : isdigit (rest.headD NUL) = false)
    (hr2 : sgn = [] → isspace (rest.headD NUL) = false ∧ rest.headD NUL ≠ '+' ∧
      rest.headD NUL ≠ '-') :
    strtol (ws ++ sgn ++ rest) = (0, ws ++ sgn ++ rest) := by
  have htw : rest.takeWhile isdigit = [] := by
    cases rest with
    | nil => rfl
    | cons c t =>
      simp only [List.headD_cons] at hr
      simp [List.takeWhile, hr]
  have hskip : (strtol.skipSign (ws ++ sgn ++ rest)).2 = rest := by
    unfold strtol.skipSign
    rcases hsgn with rfl | rfl | rfl
    · obtain ⟨h1, h2, h3⟩ := hr2 rfl
      rw [List.append_nil, dropWhile_isspace_append ws rest hws h1]
      cases rest with
      | nil => rfl
      | cons c t =>
        simp only [List.headD_cons] at h2 h3
        simp [h2, h3]
    · rw [List.append_assoc, dropWhile_isspace_append ws (['+'] ++ rest) hws
        (by exact (by decide : isspace '+' = false))]
      simp
    · rw [List.append_assoc, dropWhile_isspace_append ws (['-'] ++ rest) hws
        (by exact (by decide : isspace '-' = false))]
      simp
  unfold strtol
  simp only [hskip, htw, if_true]

theorem digitChar_facts (d : Nat) (h : d < 10) :
    isdigit (Nat.digitChar d) = true ∧ (Nat.digitChar d).toNat = 48 + d := by
  interval_cases d <;> decide

theorem repr_three_digits (n : Nat) (hlo : 100 ≤ n) (hhi : n ≤ 999) :
    (Nat.repr n).toList
      = [Nat.digitChar (n / 100), Nat.digitChar (n / 10 % 10), Nat.digitChar (n % 10)] := by
  obtain ⟨k, rfl⟩ : ∃ k, n = k + 100 := ⟨n - 100, by omega⟩
  have h1 : (k + 100) / 10 ≠ 0 := by omega
  have h2 : (k + 100) / 10 / 10 ≠ 0 := by omega
  have h3 : (k + 100) / 10 / 10 / 10 = 0 := by omega
  have e1 : (k + 100) / 10 / 10 = (k + 100) / 100 := by omega
  have e2 : (k + 100) / 10 / 10 % 10 = (k + 100) / 100 := by omega
  simp [Nat.repr, Nat.toDigits, Nat.toDigitsCore, h1, h2, h3, e2]
  rfl

/-! ## The tasks -/

theorem cardReadTask_iteration_isSome {σ ν : Type} (pn : Pn532 σ) (net : HttpClient ν)
    (rkey : List Nat) (takeHttp takeLed : Bool) (w : World σ ν) :
    ∃ acts w1, cardReadTask.iteration pn net rkey takeHttp takeLed w = some (acts, w1) := by
  unfold cardReadTask.iteration
  rcases nfc_logCard pn w.nfc log_data_t.stack rid keyA with ⟨r, logData, s1⟩
  obtain ⟨q, hq⟩ := nfc_logDataToApiString_isSome logData []
  have hk := nfc_arrayToApiString_eq none "rkey".toList rkey READER_KEY_LEN []
    (by decide) (by simp)
  simp only [hq, hk]
  by_cases hr : r ≠ 0
  · rw [if_pos hr]; exact ⟨_, _, rfl⟩
  · rw [if_neg hr]
    cases takeHttp
    · exact ⟨_, _, rfl⟩
    · simp only [if_true]
      rcases wifi_httpsExchangeData net w.net http_response_t.stack w.responseBuffer
        (some q) (some _) with ⟨⟨err, resp, buffer⟩, n1⟩
      simp only []
      by_cases he : err ≠ 0
      · rw [if_pos he]; exact ⟨_, _, rfl⟩
      · rw [if_neg he]
        cases takeLed
        · exact ⟨_, _, rfl⟩
        · exact ⟨_, _, rfl⟩

theorem batteryWarningTask_run_append (takeLed : Bool) (tr : List Sample) :
    ∀ (st : BatteryState) (s : Sample),
      (batteryWarningTask.run takeLed st (tr ++ [s])).1
        = (batteryWarningTask.step takeLed (batteryWarningTask.run takeLed st tr).1 s).1 := by
  induction tr with
  | nil => intro st s; rfl
  | cons x tr ih => intro st s; exact ih _ s

theorem batteryWarningTask_stays_warning (takeLed : Bool) (tr : List Sample)
    (h : ∀ x ∈ tr, x.poweredExternally = false) :
    (batteryWarningTask.run takeLed BatteryState.Warning tr).1 = BatteryState.Warning := by
  induction tr with
  | nil => rfl
  | cons x tr ih =>
    have hx : x.poweredExternally = false := h x (by simp)
    have hs : (batteryWarningTask.step takeLed BatteryState.Warning x).1
        = BatteryState.Warning := by
      simp [batteryWarningTask.step, hx]
    show (batteryWarningTask.run takeLed
      (batteryWarningTask.step takeLed BatteryState.Warning x).1 tr).1 = BatteryState.Warning
    rw [hs]
    exact ih (fun y hy => h y (by simp [hy]))

/-! ## Sizes of the strings -/

/-- The number of characters `nfc_arrayToApiString` writes for a key and a prefix without
`%`: those of the prefix and one `&` (when a prefix is given), those of the key, three for
`=0x` and two per byte. -/
theorem nfc_arrayToApiString_length (pfx : Option (List Char)) (key : List Char)
    (array : List Nat) (arrayLen : Nat) (destination : List Char)
    (hk : '%' ∉ key) (hp : ∀ p, pfx = some p → '%' ∉ p) :
    (nfc_arrayToApiString pfx key array arrayLen destination).map (fun s => s.length + 1)
      = some ((prefixAmp pfx).length + key.length + 3 + 2 * arrayLen + 1) := by
  rw [nfc_arrayToApiString_eq pfx key array arrayLen destination hk hp]
  simp [hexOf_length, firstN_length]
  omega

/-! ## The iterations of the tasks -/

/-- The action lists an iteration of `cardReadTask` can produce: nothing when the pipeline
fails; a failed take of the channel gate; an exchange with an error and the double red
flash; a successful exchange and a failed take of the indicator gate; a successful
exchange and the verdict. -/
theorem cardReadTask_iteration_cases {σ ν : Type} (pn : Pn532 σ) (net : HttpClient ν)
    (rkey : List Nat) (takeHttp takeLed : Bool) (w w1 : World σ ν) (acts : List Action)
    (hrun : cardReadTask.iteration pn net rkey takeHttp takeLed w = some (acts, w1)) :
    acts = [] ∨
    acts = [Action.take Semaphore.httpSemaphore false] ∨
    (∃ q k err code, err ≠ 0 ∧ acts =
      [Action.take Semaphore.httpSemaphore true, Action.exchange q k err code,
        Action.give Semaphore.httpSemaphore,
        Action.setIndicatorLed LED_RED, Action.delay 200,
        Action.setIndicatorLed LED_OFF, Action.delay 100,
        Action.setIndicatorLed LED_RED, Action.delay 200,
        Action.setIndicatorLed LED_OFF]) ∨
    (∃ q k code, acts =
      [Action.take Semaphore.httpSemaphore true, Action.exchange q k 0 code,
        Action.give Semaphore.httpSemaphore,
        Action.take Semaphore.indLedSemaphore false]) ∨
    (∃ q k code, acts =
      [Action.take Semaphore.httpSemaphore true, Action.exchange q k 0 code,
        Action.give Semaphore.httpSemaphore,
        Action.take Semaphore.indLedSemaphore true,
        Action.setIndicatorLed (if code = 100 then LED_GREEN else LED_RED),
        Action.delay 500,
        Action.setIndicatorLed LED_OFF,
        Action.give Semaphore.indLedSemaphore]) := by
  unfold cardReadTask.iteration at hrun
  rcases hlog : nfc_logCard pn w.nfc log_data_t.stack rid keyA with ⟨r, logData, s1⟩
  rw [hlog] at hrun
  obtain ⟨qs, hq⟩ := nfc_logDataToApiString_isSome logData []
  have hk := nfc_arrayToApiString_eq none "rkey".toList rkey READER_KEY_LEN []
    (by decide) (by simp)
  simp only [hq, hk] at hrun
  by_cases hr : r ≠ 0
  · rw [if_pos hr] at hrun
    simp only [Option.some.injEq, Prod.mk.injEq] at hrun
    exact Or.inl hrun.1.symm
  · rw [if_neg hr] at hrun
    cases takeHttp
    · simp only [Bool.false_eq_true, if_false, Option.some.injEq, Prod.mk.injEq] at hrun
      exact Or.inr (Or.inl hrun.1.symm)
    · simp only [if_true] at hrun
      revert hrun
      rcases wifi_httpsExchangeData net w.net http_response_t.stack w.responseBuffer
        (some qs) (some _) with ⟨⟨err, resp, buffer⟩, n1⟩
      intro hrun
      simp only [] at hrun
      by_cases he : err ≠ 0
      · rw [if_pos he] at hrun
        simp only [Option.some.injEq, Prod.mk.injEq] at hrun
        exact Or.inr (Or.inr (Or.inl ⟨_, _, err, _, he, hrun.1.symm⟩))
      · rw [if_neg he] at hrun
        have he0 : err = 0 := by omega
        subst he0
        cases takeLed
        · simp only [Bool.false_eq_true, if_false, Option.some.injEq, Prod.mk.injEq] at hrun
          exact Or.inr (Or.inr (Or.inr (Or.inl ⟨_, _, _, hrun.1.symm⟩)))
        · simp only [if_true, Option.some.injEq, Prod.mk.injEq] at hrun
          exact Or.inr (Or.inr (Or.inr (Or.inr ⟨_, _, _, hrun.1.symm⟩)))

/-- The action lists an iteration of `aliveTask` can produce: the delay and a failed take
of the channel gate, or the delay, the take, the exchange and the give. -/
theorem aliveTask_iteration_cases {σ ν : Type} (net : HttpClient ν)
    (rkey : List Nat) (takeHttp : Bool) (w w1 : World σ ν) (acts : List Action)
    (hrun : aliveTask.iteration net rkey takeHttp w = some (acts, w1)) :
    acts = [Action.delay 10000, Action.take Semaphore.httpSemaphore false] ∨
    (∃ q k err code, acts =
      [Action.delay 10000, Action.take Semaphore.httpSemaphore true,
        Action.exchange q k err code, Action.give Semaphore.httpSemaphore]) := by
  unfold aliveTask.iteration at hrun
  have hk := nfc_arrayToApiString_eq none "rkey".toList rkey READER_KEY_LEN []
    (by decide) (by simp)
  have hq := nfc_arrayToApiString_eq none "rid".toList rid READER_ID_LEN []
    (by decide) (by simp)
  simp only [hq, hk] at hrun
  cases takeHttp
  · simp only [Bool.false_eq_true, if_false, Option.some.injEq, Prod.mk.injEq] at hrun
    exact Or.inl hrun.1.symm
  · simp only [if_true, Option.some.injEq, Prod.mk.injEq] at hrun
    exact Or.inr ⟨_, _, _, _, hrun.1.symm⟩

/-- The string of a record is never empty: it ends in the `data` field. -/
theorem nfc_logDataToApiString_ne_nil (logData : log_data_t) (destination out : List Char)
    (h : nfc_logDataToApiString logData destination = some out) : out ≠ [] := by
  have hex := hexOf_no_percent
  have k1 : '%' ∉ "rid".toList := by decide
  have k2 : '%' ∉ "cid".toList := by decide
  have k3 : '%' ∉ "data".toList := by decide
  simp only [nfc_logDataToApiString, bind, Option.bind] at h
  rw [nfc_arrayToApiString_eq none _ _ _ _ k1 (by simp)] at h
  simp only [] at h
  rw [nfc_arrayToApiString_eq (some _) _ _ _ _ k2 (by
    intro p hp; cases hp
    simp only [prefixAmp, List.mem_append, not_or, List.nil_append]
    exact ⟨⟨by decide, by decide⟩, hex _⟩)] at h
  simp only [] at h
  rw [nfc_arrayToApiString_eq (some _) _ _ _ _ k3 (by
    intro p hp; cases hp
    simp only [prefixAmp, List.mem_append, not_or, List.nil_append]
    exact ⟨⟨⟨⟨⟨⟨by decide, by decide⟩, hex _⟩, by decide⟩, by decide⟩, by decide⟩, hex _⟩)] at h
  have e := Option.some.inj h
  intro hnil
  rw [hnil] at e
  have hl := congrArg List.length e
  simp [prefixAmp] at hl

/-- The string of an array is never empty when the key is not. -/
theorem nfc_arrayToApiString_ne_nil (key : List Char) (array : List Nat) (arrayLen : Nat)
    (destination out : List Char) (hk : '%' ∉ key)
    (h : nfc_arrayToApiString none key array arrayLen destination = some out) :
    out ≠ [] := by
  rw [nfc_arrayToApiString_eq none key array arrayLen destination hk (by simp)] at h
  have e := Option.some.inj h
  intro hnil
  rw [hnil] at e
  have hl := congrArg List.length e
  simp at hl

/-- The exchange of non-empty strings `q` and `k` is one call of the client with the URL
`SERVER_ADDR ++ q` and the header `k`, followed by `wifi_parseResponse` on what the call
returned. -/
theorem wifi_httpsExchangeData_of_perform {ν : Type} (net : HttpClient ν) (n n1 : ν)
    (response : http_response_t) (rb buffer q k : List Char) (err status : Int)
    (hq : q ≠ []) (hk : k ≠ [])
    (hp : net.perform n (SERVER_ADDR ++ q) (some k) rb = ((err, status, buffer), n1)) :
    wifi_httpsExchangeData net n response rb (some q) (some k)
      = (((wifi_parseResponse response status buffer err).1,
          (wifi_parseResponse response status buffer err).2, buffer), n1) := by
  simp only [wifi_httpsExchangeData, if_neg hq, if_neg hk, hp]

/-! ## The gates a task holds -/

theorem Gates_get_set (g : Gates) (s s1 : Semaphore) (b : Bool) :
    (g.set s b).get s1 = if s = s1 then b else g.get s1 := by
  cases s <;> cases s1 <;> rfl

theorem Gates_run_append (a b : List Action) :
    ∀ g : Gates, Gates.run g (a ++ b) = (Gates.run g a).bind (fun g1 => Gates.run g1 b) := by
  induction a with
  | nil => intro g; rfl
  | cons x a ih =>
    intro g
    simp only [List.cons_append, Gates.run]
    cases g.step x with
    | none => rfl
    | some g1 => exact ih g1

theorem Gates_run_initial (p l : List Action) (g g1 : Gates) (hp : p <+: l)
    (h : Gates.run g l = some g1) : ∃ g2, Gates.run g p = some g2 := by
  obtain ⟨r, rfl⟩ := hp
  rw [Gates_run_append] at h
  cases hgp : Gates.run g p with
  | none => rw [hgp] at h; exact absurd h (by simp)
  | some g2 => exact ⟨g2, rfl⟩

theorem Gates_run_flatten (chunks : List (List Action))
    (h : ∀ c ∈ chunks, Gates.run Gates.nothing c = some Gates.nothing) :
    Gates.run Gates.nothing chunks.flatten = some Gates.nothing := by
  induction chunks with
  | nil => rfl
  | cons c cs ih =>
    rw [List.flatten_cons, Gates_run_append, h c (by simp)]
    exact ih (fun c1 hc1 => h c1 (by simp [hc1]))

theorem cardReadTask_iteration_balanced (acts : List Action)
    (h : IsCardReadIteration acts) : Gates.run Gates.nothing acts = some Gates.nothing := by
  obtain ⟨σ, ν, pn, net, rkey, th, tl, w, w1, hrun⟩ := h
  rcases cardReadTask_iteration_cases pn net rkey th tl w w1 acts hrun with
    rfl | rfl | ⟨q, k, err, code, _, rfl⟩ | ⟨q, k, code, rfl⟩ | ⟨q, k, code, rfl⟩ <;> rfl

theorem aliveTask_iteration_balanced (acts : List Action)
    (h : IsAliveIteration acts) : Gates.run Gates.nothing acts = some Gates.nothing := by
  obtain ⟨σ, ν, net, rkey, th, w, w1, hrun⟩ := h
  rcases aliveTask_iteration_cases net rkey th w w1 acts hrun with
    rfl | ⟨q, k, err, code, rfl⟩ <;> rfl

theorem batteryWarningTask_step_gates (takeLed : Bool) (st : BatteryState) (s : Sample) :
    Gates.run st.gates (batteryWarningTask.step takeLed st s).2
      = some (batteryWarningTask.step takeLed st s).1.gates := by
  obtain ⟨p, c⟩ := s
  cases st <;> cases takeLed <;> cases p <;> cases c <;> rfl

/-- Along every run of `batteryWarningTask` the gates it holds are those of its state. -/
theorem batteryWarningTask_runWith_gates (xs : List (Bool × Sample)) :
    ∀ st : BatteryState, Gates.run st.gates (batteryWarningTask.runWith st xs).2
      = some (batteryWarningTask.runWith st xs).1.gates := by
  induction xs with
  | nil => intro st; rfl
  | cons x xs ih =>
    intro st
    simp only [batteryWarningTask.runWith]
    rw [Gates_run_append, batteryWarningTask_step_gates]
    exact ih _

theorem exchangesUnderGate_append (a b : List Action) :
    ∀ g g1 : Gates, Gates.run g a = some g1 →
      exchangesUnderGate g (a ++ b) = (exchangesUnderGate g a && exchangesUnderGate g1 b) := by
  induction a with
  | nil =>
    intro g g1 h
    simp only [Gates.run, Option.some.injEq] at h
    subst h
    simp [exchangesUnderGate]
  | cons x a ih =>
    intro g g1 h
    simp only [Gates.run] at h
    rcases hs : g.step x with _ | g2
    · rw [hs] at h; exact absurd h (by simp)
    · rw [hs] at h
      simp only at h
      simp only [List.cons_append, exchangesUnderGate, hs, Option.getD_some]
      have e := ih g2 g1 h
      simp only [List.append_eq] at e ⊢
      rw [e, Bool.and_assoc]

theorem exchangesUnderGate_initial (p r : List Action) :
    ∀ g : Gates, exchangesUnderGate g (p ++ r) = true → exchangesUnderGate g p = true := by
  induction p with
  | nil => intro g _; rfl
  | cons x p ih =>
    intro g h
    simp only [List.cons_append, exchangesUnderGate, Bool.and_eq_true] at h ⊢
    exact ⟨h.1, ih _ h.2⟩

theorem exchangesUnderGate_flatten (chunks : List (List Action))
    (hb : ∀ c ∈ chunks, Gates.run Gates.nothing c = some Gates.nothing)
    (he : ∀ c ∈ chunks, exchangesUnderGate Gates.nothing c = true) :
    exchangesUnderGate Gates.nothing chunks.flatten = true := by
  induction chunks with
  | nil => rfl
  | cons c cs ih =>
    rw [List.flatten_cons, exchangesUnderGate_append c _ _ _ (hb c (by simp)),
      he c (by simp), ih (fun c1 hc1 => hb c1 (by simp [hc1]))
        (fun c1 hc1 => he c1 (by simp [hc1]))]
    rfl

theorem cardReadTask_iteration_exchanges (acts : List Action)
    (h : IsCardReadIteration acts) : exchangesUnderGate Gates.nothing acts = true := by
  obtain ⟨σ, ν, pn, net, rkey, th, tl, w, w1, hrun⟩ := h
  rcases cardReadTask_iteration_cases pn net rkey th tl w w1 acts hrun with
    rfl | rfl | ⟨q, k, err, code, _, rfl⟩ | ⟨q, k, code, rfl⟩ | ⟨q, k, code, rfl⟩ <;> rfl

theorem aliveTask_iteration_exchanges (acts : List Action)
    (h : IsAliveIteration acts) : exchangesUnderGate Gates.nothing acts = true := by
  obtain ⟨σ, ν, net, rkey, th, w, w1, hrun⟩ := h
  rcases aliveTask_iteration_cases net rkey th w w1 acts hrun with
    rfl | ⟨q, k, err, code, rfl⟩ <;> rfl

theorem batteryWarningTask_runWith_exchanges (xs : List (Bool × Sample)) :
    ∀ st : BatteryState,
      exchangesUnderGate st.gates (batteryWarningTask.runWith st xs).2 = true := by
  induction xs with
  | nil => intro st; rfl
  | cons x xs ih =>
    intro st
    simp only [batteryWarningTask.runWith]
    rw [exchangesUnderGate_append _ _ _ _ (batteryWarningTask_step_gates x.1 st x.2), ih]
    obtain ⟨tl, p, c⟩ := x
    cases st <;> cases tl <;> cases p <;> cases c <;> rfl

/-! ## Interleavings -/

theorem project_cons_self (t : TaskId) (a : Action) (ex : List (TaskId × Action)) :
    project t ((t, a) :: ex) = a :: project t ex := by
  simp [project]

theorem project_cons_other (t t1 : TaskId) (a : Action) (ex : List (TaskId × Action))
    (h : t1 ≠ t) : project t ((t1, a) :: ex) = project t ex := by
  simp [project, h]

theorem project_append (t : TaskId) (a b : List (TaskId × Action)) :
    project t (a ++ b) = project t a ++ project t b := by
  simp [project]

theorem project_take_initial (t : TaskId) (ex : List (TaskId × Action)) (n : Nat) :
    project t (ex.take n) <+: project t ex := by
  refine ⟨project t (ex.drop n), ?_⟩
  rw [← project_append, List.take_append_drop]

theorem TaskTrace_initial (t : TaskId) (p acts : List Action) (hp : p <+: acts)
    (h : TaskTrace t acts) : TaskTrace t p := by
  cases t with
  | cardReadTask =>
    obtain ⟨chunks, hc, hpa⟩ := h
    exact ⟨chunks, hc, hp.trans hpa⟩
  | aliveTask =>
    obtain ⟨chunks, hc, hpa⟩ := h
    exact ⟨chunks, hc, hp.trans hpa⟩
  | batteryWarningTask =>
    obtain ⟨xs, hpa⟩ := h
    exact ⟨xs, hp.trans hpa⟩

/-- Every task keeps the discipline of the gates: along what a task has done so far, no
give is without a take and no take is repeated. -/
theorem TaskTrace_gates (t : TaskId) (acts : List Action) (h : TaskTrace t acts) :
    ∃ g, Gates.run Gates.nothing acts = some g := by
  cases t with
  | cardReadTask =>
    obtain ⟨chunks, hc, hp⟩ := h
    exact Gates_run_initial acts _ _ _ hp
      (Gates_run_flatten chunks (fun c hcm => cardReadTask_iteration_balanced c (hc c hcm)))
  | aliveTask =>
    obtain ⟨chunks, hc, hp⟩ := h
    exact Gates_run_initial acts _ _ _ hp
      (Gates_run_flatten chunks (fun c hcm => aliveTask_iteration_balanced c (hc c hcm)))
  | batteryWarningTask =>
    obtain ⟨xs, hp⟩ := h
    exact Gates_run_initial acts _ _ _ hp
      (batteryWarningTask_runWith_gates xs BatteryState.Normal)

/-- Every task exchanges only while it holds the channel gate. -/
theorem TaskTrace_exchanges (t : TaskId) (acts : List Action) (h : TaskTrace t acts) :
    exchangesUnderGate Gates.nothing acts = true := by
  cases t with
  | cardReadTask =>
    obtain ⟨chunks, hc, r, hr⟩ := h
    apply exchangesUnderGate_initial acts r
    rw [hr]
    exact exchangesUnderGate_flatten chunks
      (fun c hcm => cardReadTask_iteration_balanced c (hc c hcm))
      (fun c hcm => cardReadTask_iteration_exchanges c (hc c hcm))
  | aliveTask =>
    obtain ⟨chunks, hc, r, hr⟩ := h
    apply exchangesUnderGate_initial acts r
    rw [hr]
    exact exchangesUnderGate_flatten chunks
      (fun c hcm => aliveTask_iteration_balanced c (hc c hcm))
      (fun c hcm => aliveTask_iteration_exchanges c (hc c hcm))
  | batteryWarningTask =>
    obtain ⟨xs, r, hr⟩ := h
    apply exchangesUnderGate_initial acts r
    rw [hr]
    exact batteryWarningTask_runWith_exchanges xs BatteryState.Normal

/-- One step of an interleaving keeps the exclusion. -/
theorem semaphoreStep_exclusive (free free1 g1 : Gates) (h : TaskId → Gates) (t : TaskId)
    (a : Action) (hs : semaphoreStep free a = some free1)
    (hg : Gates.step (h t) a = some g1) (hex : Exclusive free h) :
    Exclusive free1 (Function.update h t g1) := by
  have upd_same : Function.update h t g1 t = g1 := Function.update_same t g1 h
  have upd_ne : ∀ t1, t1 ≠ t → Function.update h t g1 t1 = h t1 :=
    fun t1 hne => Function.update_noteq hne g1 h
  cases a with
  | take s ok =>
    cases ok with
    | false =>
      simp only [semaphoreStep, Gates.step, Option.some.injEq] at hs hg
      subst hs hg
      rw [Function.update_eq_self]
      exact hex
    | true =>
      simp only [semaphoreStep, Gates.step] at hs hg
      by_cases hf : free.get s = true
      · rw [if_pos hf] at hs
        by_cases hh : (h t).get s = true
        · rw [if_pos hh] at hg; exact absurd hg (by simp)
        · rw [if_neg hh] at hg
          simp only [Option.some.injEq] at hs hg
          subst hs hg
          intro s1
          by_cases e : s = s1
          · subst e
            refine ⟨fun hfree => ?_, fun t1 t2 h1 h2 => ?_⟩
            · rw [Gates_get_set, if_pos rfl] at hfree
              exact absurd hfree (by simp)
            · have hnone := (hex s).1 hf
              have key : ∀ t1, (Function.update h t ((h t).set s true) t1).get s = true →
                  t1 = t := by
                intro t1 ht1
                by_contra hne
                rw [upd_ne t1 hne, hnone t1] at ht1
                exact absurd ht1 (by simp)
              rw [key t1 h1, key t2 h2]
          · have hsame : ∀ t1, (Function.update h t ((h t).set s true) t1).get s1
                = (h t1).get s1 := by
              intro t1
              by_cases ht : t1 = t
              · subst ht; rw [upd_same, Gates_get_set, if_neg e]
              · rw [upd_ne t1 ht]
            refine ⟨fun hfree t1 => ?_, fun t1 t2 h1 h2 => ?_⟩
            · rw [Gates_get_set, if_neg e] at hfree
              rw [hsame]; exact (hex s1).1 hfree t1
            · rw [hsame] at h1 h2; exact (hex s1).2 t1 t2 h1 h2
      · rw [if_neg hf] at hs; exact absurd hs (by simp)
  | give s =>
    simp only [semaphoreStep, Gates.step] at hs hg
    by_cases hh : (h t).get s = true
    · rw [if_pos hh] at hg
      simp only [Option.some.injEq] at hs hg
      subst hs hg
      intro s1
      by_cases e : s = s1
      · subst e
        have key : ∀ t1, (Function.update h t ((h t).set s false) t1).get s = false := by
          intro t1
          by_cases ht : t1 = t
          · subst ht; rw [upd_same, Gates_get_set, if_pos rfl]
          · rw [upd_ne t1 ht]
            by_contra hc
            have : (h t1).get s = true := by simpa using hc
            exact ht ((hex s).2 t1 t this hh)
        refine ⟨fun _ t1 => key t1, fun t1 t2 h1 _ => ?_⟩
        rw [key t1] at h1; exact absurd h1 (by simp)
      · have hsame : ∀ t1, (Function.update h t ((h t).set s false) t1).get s1
            = (h t1).get s1 := by
          intro t1
          by_cases ht : t1 = t
          · subst ht; rw [upd_same, Gates_get_set, if_neg e]
          · rw [upd_ne t1 ht]
        refine ⟨fun hfree t1 => ?_, fun t1 t2 h1 h2 => ?_⟩
        · rw [Gates_get_set, if_neg e] at hfree
          rw [hsame]; exact (hex s1).1 hfree t1
        · rw [hsame] at h1 h2; exact (hex s1).2 t1 t2 h1 h2
    · rw [if_neg hh] at hg; exact absurd hg (by simp)
  | exchange q k err code =>
    simp only [semaphoreStep, Gates.step, Option.some.injEq] at hs hg
    subst hs hg
    rw [Function.update_eq_self]
    exact hex
  | setIndicatorLed st =>
    simp only [semaphoreStep, Gates.step, Option.some.injEq] at hs hg
    subst hs hg
    rw [Function.update_eq_self]
    exact hex
  | delay ms =>
    simp only [semaphoreStep, Gates.step, Option.some.injEq] at hs hg
    subst hs hg
    rw [Function.update_eq_self]
    exact hex

/-- Along an interleaving in which every step is allowed by the semaphores and by the
discipline of the task performing it, the exclusion is kept, and the gates each task holds
are those its own actions give. -/
theorem semaphoreRun_exclusive (ex : List (TaskId × Action)) :
    ∀ (free free1 : Gates) (h : TaskId → Gates),
      semaphoreRun free ex = some free1 →
      (∀ t, ∃ g, Gates.run (h t) (project t ex) = some g) →
      Exclusive free h →
      ∃ h1 : TaskId → Gates,
        (∀ t, Gates.run (h t) (project t ex) = some (h1 t)) ∧ Exclusive free1 h1 := by
  induction ex with
  | nil =>
    intro free free1 h hrun _ hex
    simp only [semaphoreRun, Option.some.injEq] at hrun
    subst hrun
    exact ⟨h, fun t => rfl, hex⟩
  | cons x rest ih =>
    obtain ⟨t, a⟩ := x
    intro free free1 h hrun hdef hex
    simp only [semaphoreRun] at hrun
    rcases hs : semaphoreStep free a with _ | free2
    · rw [hs] at hrun; exact absurd hrun (by simp)
    · rw [hs] at hrun
      simp only at hrun
      obtain ⟨g, hg⟩ := hdef t
      rw [project_cons_self] at hg
      simp only [Gates.run] at hg
      rcases hst : Gates.step (h t) a with _ | g1
      · rw [hst] at hg; exact absurd hg (by simp)
      · rw [hst] at hg
        simp only at hg
        have hex2 := semaphoreStep_exclusive free free2 g1 h t a hs hst hex
        have hdef2 : ∀ t1, ∃ g2,
            Gates.run (Function.update h t g1 t1) (project t1 rest) = some g2 := by
          intro t1
          by_cases e : t1 = t
          · subst e; rw [Function.update_same]; exact ⟨g, hg⟩
          · rw [Function.update_noteq e]
            obtain ⟨g2, hg2⟩ := hdef t1
            rw [project_cons_other t1 t a rest (Ne.symm e)] at hg2
            exact ⟨g2, hg2⟩
        obtain ⟨h1, hh1, hex1⟩ := ih free2 free1 (Function.update h t g1) hrun hdef2 hex2
        refine ⟨h1, fun t1 => ?_, hex1⟩
        by_cases e : t1 = t
        · subst e
          rw [project_cons_self]
          simp only [Gates.run, hst]
          have := hh1 t1
          rw [Function.update_same] at this
          exact this
        · rw [project_cons_other t1 t a rest (Ne.symm e)]
          have := hh1 t1
          rw [Function.update_noteq e] at this
          exact this

/-- In `sampleInterleaving` each task does what its loop can do. -/
theorem sampleInterleaving_traces (t : TaskId) :
    TaskTrace t (project t sampleInterleaving) := by
  cases t with
  | cardReadTask =>
    exact ⟨[verdictActions 100 LED_GREEN],
      fun c hc => by
        rw [List.mem_singleton] at hc
        subst hc
        exact ⟨Unit, Unit, Card.good.driver,
          HttpClient.replying "\"100 OK\"".toList, rkey0, true, true, World.start,
          { nfc := (), net := (), responseBuffer := "\"100 OK\"".toList }, by decide⟩,
      ⟨(verdictActions 100 LED_GREEN).drop 3, by decide⟩⟩
  | aliveTask =>
    exact ⟨[aliveActions],
      fun c hc => by
        rw [List.mem_singleton] at hc
        subst hc
        exact ⟨Unit, Unit, HttpClient.replying "\"200 OK\"".toList, rkey0, true,
          World.start,
          { nfc := (), net := (), responseBuffer := "\"200 OK\"".toList }, by decide⟩,
      ⟨aliveActions.drop 2, by decide⟩⟩
  | batteryWarningTask =>
    exact ⟨[(true, ⟨true, false⟩)], ⟨[], by decide⟩⟩

/-! ## The claims -/

/-- C1 (all-or-nothing credential read).  For every driver, device state, record and
keys: if in the run of `nfc_logCard` the authentication of some block `k` fails, or the
read of some block `k` fails, then `nfc_logCard` returns a non-zero code and the payload of
the record consists of 32 zero bytes, so that no byte read from any block appears in it.
The run is observed through the recording driver, which behaves as the driver itself
(`nfc_logCard_traced_eq`). -/
theorem nfc_logCard_all_or_nothing {σ : Type} (pn : Pn532 σ) (s : σ) (logData : log_data_t)
    (readerId keyA : List Nat) (k : Nat)
    (hshape : logData.data.length = CARD_DATA_LEN)
    (hfail : DriverEvent.auth k false ∈
          (nfc_logCard pn.traced (s, []) logData readerId keyA).2.2.2 ∨
        DriverEvent.read k none ∈
          (nfc_logCard pn.traced (s, []) logData readerId keyA).2.2.2) :
    (nfc_logCard pn.traced (s, []) logData readerId keyA).1 ≠ 0 ∧
    (nfc_logCard pn.traced (s, []) logData readerId keyA).2.1.data = List.replicate 32 0 ∧
    (nfc_logCard pn s logData readerId keyA).1 ≠ 0 ∧
    (nfc_logCard pn s logData readerId keyA).2.1.data = List.replicate 32 0 := by
  have hz := arrayFill_eq logData.data CARD_DATA_LEN 0 hshape
  obtain ⟨l1, hsim⟩ := nfc_logCard_traced_eq pn s [] logData readerId keyA
  have key : (nfc_logCard pn.traced (s, []) logData readerId keyA).1 ≠ 0 ∧
      (nfc_logCard pn.traced (s, []) logData readerId keyA).2.1.data
        = List.replicate 32 0 := by
    rcases nfc_logCard_traced_cases pn s logData readerId keyA with
      ⟨s1, ld, _, h, hd⟩ | ⟨s1, ld, _, h, hd⟩ | ⟨s1, ld, _, h, hd⟩ | ⟨s1, ld, d4, _, h, hd⟩ |
      ⟨s1, ld, d4, _, h, hd⟩ | ⟨s1, ld, d4, d5, h, hd⟩
    all_goals rw [h] at hfail ⊢
    all_goals simp at hfail
    all_goals exact ⟨by simp, by rw [hd, hz]; rfl⟩
  refine ⟨key.1, key.2, ?_, ?_⟩
  · have := key.1; rw [hsim] at this; exact this
  · have := key.2; rw [hsim] at this; exact this

/-- A run of `nfc_logCard` on a card whose block 5 fails authentication. -/
theorem nfc_logCard_all_or_nothing_witness :
    (nfc_logCard Card.authFailsAt5.driver.traced ((), []) log_data_t.stack rid keyA).1 ≠ 0 ∧
    (nfc_logCard Card.authFailsAt5.driver.traced ((), []) log_data_t.stack rid keyA).2.1.data
      = List.replicate 32 0 ∧
    (nfc_logCard Card.authFailsAt5.driver () log_data_t.stack rid keyA).1 ≠ 0 ∧
    (nfc_logCard Card.authFailsAt5.driver () log_data_t.stack rid keyA).2.1.data
      = List.replicate 32 0 :=
  nfc_logCard_all_or_nothing Card.authFailsAt5.driver () log_data_t.stack rid keyA 5
    (by decide) (Or.inl (by decide))

/-- C2, as stated, fails: the text `100 OK` (the decimal code 100, one space, the message
`OK`) decodes to the code 0 and the empty message. -/
theorem wifi_parseResponse_unframed_text :
    (Nat.repr 100).toList ++ ' ' :: "OK".toList = "100 OK".toList ∧
    wifi_parseResponse http_response_t.stack 200 "100 OK".toList ESP_OK
      = (0, { apiCode := 0, apiMessage := [] }) ∧
    (0 : Nat) ≠ 100 ∧ ([] : List Char) ≠ "OK".toList := by
  decide

/-- C2, amended.  For every code from 100 to 999 and every message `msg`, the response
text made of one arbitrary character, the decimal code, one space, the message and one more
arbitrary character is decoded by `wifi_parseApiCode` to the code and by
`wifi_parseResponse` (transport OK, HTTP status 200) to the code and the message. -/
theorem wifi_parseResponse_framed_round_trip (response : http_response_t) (code : Nat)
    (msg : List Char) (c0 c1 : Char) (hlo : 100 ≤ code) (hhi : code ≤ 999) :
    wifi_parseApiCode ([c0] ++ ((Nat.repr code).toList ++ ' ' :: msg) ++ [c1]) = code ∧
    wifi_parseResponse response 200
        ([c0] ++ ((Nat.repr code).toList ++ ' ' :: msg) ++ [c1]) ESP_OK
      = (0, { apiCode := code, apiMessage := msg }) := by
  have ha := digitChar_facts (code / 100) (by omega)
  have hb := digitChar_facts (code / 10 % 10) (by omega)
  have hc := digitChar_facts (code % 10) (by omega)
  have hrepr := repr_three_digits code hlo hhi
  have hs := strtol_number [] ((Nat.repr code).toList) (' ' :: (msg ++ [c1])) false []
    (by simp) (Or.inr ⟨rfl, Or.inr rfl⟩) (by rw [hrepr]; simp)
    (by rw [hrepr]; intro c hc'; simp at hc'; rcases hc' with rfl | rfl | rfl
        · exact ha.1
        · exact hb.1
        · exact hc.1)
    (by rw [List.headD_cons]; decide)
  have hval : strtol.value ((Nat.repr code).toList) = code := by
    rw [hrepr]
    simp only [strtol.value, List.foldl_cons, List.foldl_nil, ha.2, hb.2, hc.2]
    omega
  have hcode : wifi_parseApiCode ([c0] ++ ((Nat.repr code).toList ++ ' ' :: msg) ++ [c1])
      = code := by
    have hdrop : ([c0] ++ ((Nat.repr code).toList ++ ' ' :: msg) ++ [c1]).drop 1
        = [] ++ [] ++ (Nat.repr code).toList ++ ' ' :: (msg ++ [c1]) := by simp
    have hlen : ¬ ([c0] ++ ((Nat.repr code).toList ++ ' ' :: msg) ++ [c1]).length < 6 := by
      rw [hrepr]; simp
    unfold wifi_parseApiCode
    rw [if_neg hlen, hdrop, hs, hval]
    simp only [List.headD_cons, if_true, Bool.false_eq_true, if_false]
    have : max LONG_MIN (min LONG_MAX (code : Int)) = (code : Int) := by
      unfold LONG_MIN LONG_MAX; omega
    rw [this]
    omega
  refine ⟨hcode, ?_⟩
  have hne : code ≠ UINT32_MINUS_ONE := by unfold UINT32_MINUS_ONE; omega
  have hmsg : (([c0] ++ ((Nat.repr code).toList ++ ' ' :: msg) ++ [c1]).drop 5).dropLast
      = msg := by
    rw [hrepr]; simp
  simp only [wifi_parseResponse, hcode, hmsg, ESP_OK, if_true, ne_eq, not_true, if_false, hne,
    not_false_eq_true]

/-- The quoted body `"403 Denied"` decodes to 403 and `Denied`. -/
theorem wifi_parseResponse_framed_round_trip_witness :
    wifi_parseResponse http_response_t.stack 200
        (['"'] ++ ((Nat.repr 403).toList ++ ' ' :: "Denied".toList) ++ ['"']) ESP_OK
      = (0, { apiCode := 403, apiMessage := "Denied".toList }) :=
  (wifi_parseResponse_framed_round_trip http_response_t.stack 403 "Denied".toList '"' '"'
    (by decide) (by decide)).2

/-- C3: the prefix is passed to `sprintf` as the format, so a prefix containing `%%` is
not prepended as it stands: `nfc_arrayToApiString` writes `a%b&rid=0x12ab` for the prefix
`a%%b`, where the claimed output is `a%%b&rid=0x12ab`. -/
theorem nfc_arrayToApiString_prefix_as_format :
    nfc_arrayToApiString (some "a%%b".toList) "rid".toList [0x12, 0xAB] 2 []
      = some "a%b&rid=0x12ab".toList ∧
    nfc_arrayToApiString (some "a%%b".toList) "rid".toList [0x12, 0xAB] 2 []
      ≠ some ("a%%b".toList ++ "&".toList ++ "rid".toList ++ "=0x".toList
          ++ hexOf [0x12, 0xAB]) := by
  decide

/-- C4 (record encoding).  For every record whose arrays have their declared sizes,
`nfc_logDataToApiString` produces the encoding of the reader id under key `rid`, then `&`,
then the encoding of the 8-byte credential id field under key `cid`, then `&`, then the
encoding of the 32-byte payload under key `data`, where the encoding of an array under a
key is what `nfc_arrayToApiString` writes without prefix, namely the key, `=0x` and two
lowercase hexadecimal digits per byte; the output starts with `rid`, not with `&`.  When
the credential id starts with the bytes AA BB CC DD the output contains
`cid=0xaabbccdd`. -/
theorem nfc_logDataToApiString_eq (logData : log_data_t) (destination : List Char)
    (hr : logData.rid.length = READER_ID_LEN) (hc : logData.cid.length = CARD_ID_LEN)
    (hd : logData.data.length = CARD_DATA_LEN) :
    nfc_arrayToApiString none "rid".toList logData.rid READER_ID_LEN []
      = some ("rid=0x".toList ++ hexOf logData.rid) ∧
    nfc_arrayToApiString none "cid".toList logData.cid CARD_ID_LEN []
      = some ("cid=0x".toList ++ hexOf logData.cid) ∧
    nfc_arrayToApiString none "data".toList logData.data CARD_DATA_LEN []
      = some ("data=0x".toList ++ hexOf logData.data) ∧
    nfc_logDataToApiString logData destination
      = some (("rid=0x".toList ++ hexOf logData.rid) ++ "&".toList
          ++ ("cid=0x".toList ++ hexOf logData.cid) ++ "&".toList
          ++ ("data=0x".toList ++ hexOf logData.data)) ∧
    (∀ t, logData.cid = 0xAA :: 0xBB :: 0xCC :: 0xDD :: t →
      ∃ out, nfc_logDataToApiString logData destination = some out ∧
        "cid=0xaabbccdd".toList <:+: out) := by
  have hex := hexOf_no_percent
  have e1 : firstN READER_ID_LEN logData.rid = logData.rid := by
    rw [← hr]; exact firstN_length_self _
  have e2 : firstN CARD_ID_LEN logData.cid = logData.cid := by
    rw [← hc]; exact firstN_length_self _
  have e3 : firstN CARD_DATA_LEN logData.data = logData.data := by
    rw [← hd]; exact firstN_length_self _
  have k1 : '%' ∉ "rid".toList := by decide
  have k2 : '%' ∉ "cid".toList := by decide
  have k3 : '%' ∉ "data".toList := by decide
  have a1 : ∀ dst, nfc_arrayToApiString none "rid".toList logData.rid READER_ID_LEN dst
      = some ("rid=0x".toList ++ hexOf logData.rid) := by
    intro dst
    rw [nfc_arrayToApiString_eq none _ _ _ _ k1 (by simp), e1]; rfl
  have a2 : nfc_arrayToApiString none "cid".toList logData.cid CARD_ID_LEN []
      = some ("cid=0x".toList ++ hexOf logData.cid) := by
    rw [nfc_arrayToApiString_eq none _ _ _ _ k2 (by simp), e2]; rfl
  have a3 : nfc_arrayToApiString none "data".toList logData.data CARD_DATA_LEN []
      = some ("data=0x".toList ++ hexOf logData.data) := by
    rw [nfc_arrayToApiString_eq none _ _ _ _ k3 (by simp), e3]; rfl
  have p1 : '%' ∉ "rid=0x".toList ++ hexOf logData.rid := by
    simp only [List.mem_append, not_or]; exact ⟨by decide, hex _⟩
  have p2 : '%' ∉ "rid=0x".toList ++ hexOf logData.rid ++ ['&'] ++ "cid".toList
      ++ "=0x".toList ++ hexOf logData.cid := by
    simp only [List.mem_append, not_or]
    exact ⟨⟨⟨⟨⟨by decide, hex _⟩, by decide⟩, by decide⟩, by decide⟩, hex _⟩
  have a4 : nfc_logDataToApiString logData destination
      = some (("rid=0x".toList ++ hexOf logData.rid) ++ "&".toList
          ++ ("cid=0x".toList ++ hexOf logData.cid) ++ "&".toList
          ++ ("data=0x".toList ++ hexOf logData.data)) := by
    simp only [nfc_logDataToApiString, a1 destination, bind, Option.bind]
    rw [nfc_arrayToApiString_eq (some _) _ _ _ _ k2
      (by intro p hp; cases hp; exact p1), e2]
    simp only [prefixAmp]
    rw [nfc_arrayToApiString_eq (some _) _ _ _ _ k3
      (by intro p hp; cases hp; exact p2), e3]
    simp [prefixAmp]
  refine ⟨a1 [], a2, a3, a4, ?_⟩
  intro t ht
  refine ⟨_, a4, ?_⟩
  rw [ht, hexOf_aabbccdd]
  exact ⟨"rid=0x".toList ++ hexOf logData.rid ++ "&".toList,
    hexOf t ++ "&".toList ++ ("data=0x".toList ++ hexOf logData.data), by simp⟩

/-- The query string of the record read from the card AA BB CC DD. -/
theorem nfc_logDataToApiString_eq_witness :
    Card.goodRecord.cid = [0xAA, 0xBB, 0xCC, 0xDD, 0, 0, 0, 0] ∧
    nfc_logDataToApiString Card.goodRecord []
      = some (("rid=0x".toList ++ hexOf Card.goodRecord.rid) ++ "&".toList
          ++ ("cid=0x".toList ++ hexOf Card.goodRecord.cid) ++ "&".toList
          ++ ("data=0x".toList ++ hexOf Card.goodRecord.data)) ∧
    ("rid=0x".toList ++ hexOf Card.goodRecord.rid) ++ "&".toList
          ++ ("cid=0x".toList ++ hexOf Card.goodRecord.cid) ++ "&".toList
          ++ ("data=0x".toList ++ hexOf Card.goodRecord.data)
      = ("rid=0x1234567812345678&cid=0xaabbccdd00000000&data=0x" ++
          "404142434445464748494a4b4c4d4e4f505152535455565758595a5b5c5d5e5f").toList :=
  ⟨by decide,
    (nfc_logDataToApiString_eq Card.goodRecord [] (by decide) (by decide) (by decide)).2.2.2.1,
    by decide⟩

/-- C5, as stated, fails: `x abcde` has no digit at its start and `1+5 abcd` has the
leading digit sequence `1` followed by `+`, not by a space, yet `wifi_parseApiCode`
returns 0 and 5 for them, not the sentinel. -/
theorem wifi_parseApiCode_accepts_malformed :
    ("x abcde".toList.takeWhile isdigit = [] ∧
      wifi_parseApiCode "x abcde".toList = 0) ∧
    ("1+5 abcd".toList.takeWhile isdigit = ['1'] ∧
      ("1+5 abcd".toList.dropWhile isdigit).headD NUL = '+' ∧
      wifi_parseApiCode "1+5 abcd".toList = 5) ∧
    UINT32_MINUS_ONE ≠ 0 ∧ UINT32_MINUS_ONE ≠ 5 := by
  decide

/-- C5, amended.  `wifi_parseApiCode` returns the unparsed sentinel (1) whenever the text
is shorter than 6 characters; (2) whenever no number starts at index 1, that is, after
optional white space and an optional sign no digit follows, and the character at index 1
is not a space; (3) whenever the number that starts at index 1 (optional white space, an
optional sign, a non-empty digit sequence) is not immediately followed by a space. -/
theorem wifi_parseApiCode_malformed (buffer : List Char) :
    (buffer.length < 6 → wifi_parseApiCode buffer = UINT32_MINUS_ONE) ∧
    (∀ c0 ws sgn rest, buffer = [c0] ++ ws ++ sgn ++ rest →
      (∀ c ∈ ws, isspace c = true) → (sgn = [] ∨ sgn = ['+'] ∨ sgn = ['-']) →
      isdigit (rest.headD NUL) = false →
      (sgn = [] → isspace (rest.headD NUL) = false ∧ rest.headD NUL ≠ '+' ∧
        rest.headD NUL ≠ '-') →
      (ws ++ sgn ++ rest).headD NUL ≠ ' ' → wifi_parseApiCode buffer = UINT32_MINUS_ONE) ∧
    (∀ c0 ws sgn ds rest, buffer = [c0] ++ ws ++ sgn ++ ds ++ rest →
      (∀ c ∈ ws, isspace c = true) → (sgn = [] ∨ sgn = ['+'] ∨ sgn = ['-']) →
      ds ≠ [] → (∀ c ∈ ds, isdigit c = true) → isdigit (rest.headD NUL) = false →
      rest.headD NUL ≠ ' ' → wifi_parseApiCode buffer = UINT32_MINUS_ONE) := by
  refine ⟨?_, ?_, ?_⟩
  · intro h
    simp [wifi_parseApiCode, h]
  · intro c0 ws sgn rest hb hws hsgn hr hr2 hsp
    subst hb
    have hs := strtol_no_number ws sgn rest hws hsgn hr hr2
    have hdrop : ([c0] ++ ws ++ sgn ++ rest).drop 1 = ws ++ sgn ++ rest := by simp
    unfold wifi_parseApiCode
    split
    · rfl
    · rw [hdrop, hs]
      simp only []
      rw [if_neg hsp]
  · intro c0 ws sgn ds rest hb hws hsgn hne hds hr hsp
    subst hb
    have hs : ∃ v, strtol (ws ++ sgn ++ ds ++ rest) = (v, rest) := by
      rcases hsgn with rfl | rfl | rfl
      · exact ⟨_, strtol_number ws ds rest false [] hws (Or.inr ⟨rfl, Or.inr rfl⟩) hne hds hr⟩
      · exact ⟨_, strtol_number ws ds rest false ['+'] hws (Or.inr ⟨rfl, Or.inl rfl⟩)
          hne hds hr⟩
      · exact ⟨_, strtol_number ws ds rest true ['-'] hws (Or.inl ⟨rfl, rfl⟩) hne hds hr⟩
    obtain ⟨v, hv⟩ := hs
    have hdrop : ([c0] ++ ws ++ sgn ++ ds ++ rest).drop 1 = ws ++ sgn ++ ds ++ rest := by
      simp
    unfold wifi_parseApiCode
    split
    · rfl
    · rw [hdrop, hv]
      simp only []
      rw [if_neg hsp]

/-- Three malformed bodies: too short, no number after the first character, a number
followed by a colon. -/
theorem wifi_parseApiCode_malformed_witness :
    wifi_parseApiCode "abc".toList = UINT32_MINUS_ONE ∧
    wifi_parseApiCode "<html>".toList = UINT32_MINUS_ONE ∧
    wifi_parseApiCode "\"100: OK\"".toList = UINT32_MINUS_ONE :=
  ⟨(wifi_parseApiCode_malformed "abc".toList).1 (by decide),
    (wifi_parseApiCode_malformed "<html>".toList).2.1 '<' [] [] "html>".toList (by decide)
      (by decide) (Or.inl rfl) (by decide) (by decide) (by decide),
    (wifi_parseApiCode_malformed "\"100: OK\"".toList).2.2 '"' [] [] "100".toList
      ": OK\"".toList (by decide) (by decide) (Or.inl rfl) (by decide) (by decide)
      (by decide) (by decide)⟩

/-- C6 (degraded result on a malformed body).  For every response buffer on which
`wifi_parseApiCode` returns the unparsed sentinel, `wifi_parseResponse` with transport
result `ESP_OK` and HTTP status 200 returns 0, sets `apiCode` to 4294967295, which is not
0, and sets `apiMessage` to the placeholder `Ureadable response`, whatever the buffer
holds. -/
theorem wifi_parseResponse_malformed (response : http_response_t) (buffer : List Char)
    (h : wifi_parseApiCode buffer = UINT32_MINUS_ONE) :
    wifi_parseResponse response 200 buffer ESP_OK
      = (0, { apiCode := 4294967295, apiMessage := "Ureadable response".toList }) ∧
    (4294967295 : Nat) ≠ 0 ∧ UINT32_MINUS_ONE = 4294967295 := by
  refine ⟨?_, by decide, rfl⟩
  simp [wifi_parseResponse, h, UNREADABLE, UINT32_MINUS_ONE]

/-- An HTML body is answered with the sentinel and the placeholder. -/
theorem wifi_parseResponse_malformed_witness :
    wifi_parseApiCode "<html>".toList = UINT32_MINUS_ONE ∧
    wifi_parseResponse http_response_t.stack 200 "<html>".toList ESP_OK
      = (0, { apiCode := 4294967295, apiMessage := "Ureadable response".toList }) :=
  ⟨by decide,
    (wifi_parseResponse_malformed http_response_t.stack "<html>".toList (by decide)).1⟩

/-- C7 (payload assembly).  For every driver and device state: (1) if the driver never
fails to give a card ID, nor to authenticate or read block 4 or block 5, `nfc_logCard`
returns 0; (2) `nfc_logCard` returns 0 exactly when its driver calls were, in this order,
a successful ID read, authentication of block 4, read of block 4, authentication of block
5 and read of block 5, all successful; (3) in that case the payload of the record is the
16 bytes read from block 4 followed by the 16 bytes read from block 5. -/
theorem nfc_logCard_payload_assembly {σ : Type} (pn : Pn532 σ) (s : σ)
    (logData : log_data_t) (readerId keyA : List Nat)
    (hshape : logData.data.length = CARD_DATA_LEN) :
    ((¬ pn.idFails ∧ ¬ pn.authFails keyA 4 ∧ ¬ pn.readFails 4 ∧ ¬ pn.authFails keyA 5 ∧
        ¬ pn.readFails 5) → (nfc_logCard pn.traced (s, []) logData readerId keyA).1 = 0) ∧
    ((nfc_logCard pn.traced (s, []) logData readerId keyA).1 = 0 ↔
      ∃ d4 d5, (nfc_logCard pn.traced (s, []) logData readerId keyA).2.2.2 =
        [DriverEvent.readId true, DriverEvent.auth 4 true, DriverEvent.read 4 (some d4),
          DriverEvent.auth 5 true, DriverEvent.read 5 (some d5)]) ∧
    (∀ d4 d5, (nfc_logCard pn.traced (s, []) logData readerId keyA).2.2.2 =
        [DriverEvent.readId true, DriverEvent.auth 4 true, DriverEvent.read 4 (some d4),
          DriverEvent.auth 5 true, DriverEvent.read 5 (some d5)] →
      d4.length = 16 → d5.length = 16 →
      (nfc_logCard pn.traced (s, []) logData readerId keyA).2.1.data = d4 ++ d5 ∧
      (nfc_logCard pn s logData readerId keyA).1 = 0 ∧
      (nfc_logCard pn s logData readerId keyA).2.1.data = d4 ++ d5) := by
  have hz := arrayFill_eq logData.data CARD_DATA_LEN 0 hshape
  obtain ⟨l1, hsim⟩ := nfc_logCard_traced_eq pn s [] logData readerId keyA
  rcases nfc_logCard_traced_cases pn s logData readerId keyA with
    ⟨s1, ld, hf, h, hd⟩ | ⟨s1, ld, hf, h, hd⟩ | ⟨s1, ld, hf, h, hd⟩ | ⟨s1, ld, d4, hf, h, hd⟩ |
    ⟨s1, ld, d4, hf, h, hd⟩ | ⟨s1, ld, d4, d5, h, hd⟩
  · rw [h]; refine ⟨fun hh => absurd hf hh.1, by simp, by simp⟩
  · rw [h]; refine ⟨fun hh => absurd hf hh.2.1, by simp, by simp⟩
  · rw [h]; refine ⟨fun hh => absurd hf hh.2.2.1, by simp, by simp⟩
  · rw [h]; refine ⟨fun hh => absurd hf hh.2.2.2.1, by simp, by simp⟩
  · rw [h]; refine ⟨fun hh => absurd hf hh.2.2.2.2, by simp, by simp⟩
  · rw [h] at hsim
    rw [h]
    refine ⟨fun _ => rfl, ⟨fun _ => ⟨d4, d5, rfl⟩, fun _ => rfl⟩, ?_⟩
    intro e4 e5 he h4 h5
    simp only [List.cons.injEq, DriverEvent.read.injEq, Option.some.injEq, true_and,
      and_true] at he
    obtain ⟨rfl, rfl⟩ := he
    have hp : ld.data = d4 ++ d5 := by
      rw [hd, payloadOf_eq _ _ _ (by rw [hz]; simp [CARD_DATA_LEN]) h4 h5]
    have h1 := congrArg Prod.fst hsim
    have h2 := congrArg (fun r => r.2.1) hsim
    simp only at h1 h2
    exact ⟨hp, h1.symm, by rw [← h2]; exact hp⟩

/-- A run of `nfc_logCard` on a card whose blocks all authenticate and read. -/
theorem nfc_logCard_payload_assembly_witness :
    (nfc_logCard Card.good.driver.traced ((), []) log_data_t.stack rid keyA).1 = 0 ∧
    (nfc_logCard Card.good.driver () log_data_t.stack rid keyA).2.1.data
      = List.range' 64 16 ++ List.range' 80 16 :=
  ⟨(nfc_logCard_payload_assembly Card.good.driver () log_data_t.stack rid keyA
      (by decide)).2.1.mpr ⟨List.range' 64 16, List.range' 80 16, by decide⟩,
    ((nfc_logCard_payload_assembly Card.good.driver () log_data_t.stack rid keyA
      (by decide)).2.2 (List.range' 64 16) (List.range' 80 16) (by decide) (by decide)
      (by decide)).2.2⟩

/-- C8, as stated, fails: a run in which block 5 fails authentication and a run in which
block 4 fails to read return the same code and the same record. -/
theorem nfc_logCard_failure_reasons_collapse :
    DriverEvent.auth 5 false ∈
      (nfc_logCard Card.authFailsAt5.driver.traced ((), []) log_data_t.stack rid keyA).2.2.2 ∧
    DriverEvent.read 4 none ∈
      (nfc_logCard Card.readFailsAt4.driver.traced ((), []) log_data_t.stack rid keyA).2.2.2 ∧
    (nfc_logCard Card.authFailsAt5.driver () log_data_t.stack rid keyA).1 = 2 ∧
    nfc_logCard Card.authFailsAt5.driver () log_data_t.stack rid keyA
      = nfc_logCard Card.readFailsAt4.driver () log_data_t.stack rid keyA := by
  decide

/-- C8, amended.  The code returned by `nfc_logCard` is 0, 1 or 2; it is 1 exactly when no
card ID was obtained, and 2 exactly when the ID was obtained and the authentication or the
read of some block failed, whichever block and whichever of the two. -/
theorem nfc_logCard_failure_codes {σ : Type} (pn : Pn532 σ) (s : σ) (logData : log_data_t)
    (readerId keyA : List Nat) :
    ((nfc_logCard pn.traced (s, []) logData readerId keyA).1 = 0 ∨
      (nfc_logCard pn.traced (s, []) logData readerId keyA).1 = 1 ∨
      (nfc_logCard pn.traced (s, []) logData readerId keyA).1 = 2) ∧
    ((nfc_logCard pn.traced (s, []) logData readerId keyA).1 = 1 ↔
      (nfc_logCard pn.traced (s, []) logData readerId keyA).2.2.2
        = [DriverEvent.readId false]) ∧
    ((nfc_logCard pn.traced (s, []) logData readerId keyA).1 = 2 ↔
      DriverEvent.readId true ∈ (nfc_logCard pn.traced (s, []) logData readerId keyA).2.2.2 ∧
      ∃ k, DriverEvent.auth k false ∈
            (nfc_logCard pn.traced (s, []) logData readerId keyA).2.2.2 ∨
          DriverEvent.read k none ∈
            (nfc_logCard pn.traced (s, []) logData readerId keyA).2.2.2) := by
  rcases nfc_logCard_traced_cases pn s logData readerId keyA with
    ⟨s1, ld, _, h, _⟩ | ⟨s1, ld, _, h, _⟩ | ⟨s1, ld, _, h, _⟩ | ⟨s1, ld, d4, _, h, _⟩ |
    ⟨s1, ld, d4, _, h, _⟩ | ⟨s1, ld, d4, d5, h, _⟩
  all_goals rw [h]
  all_goals simp

/-- C9 (verdict rendering).  In every iteration of `cardReadTask` in which an exchange is
made and returns success (error code 0) with decoded code `c`, and the indicator semaphore
is obtained, the pipeline has succeeded and the actions of the iteration are exactly: take
the channel gate, exchange, release the channel gate, take the indicator gate, set the
indicator to green if `c = 100` and to red otherwise, wait 500 ms, set the indicator to
off, release the indicator gate. -/
theorem cardReadTask_verdict {σ ν : Type} (pn : Pn532 σ) (net : HttpClient ν)
    (rkey : List Nat) (takeHttp takeLed : Bool) (w w1 : World σ ν) (acts : List Action)
    (q k : List Char) (c : Nat)
    (hrun : cardReadTask.iteration pn net rkey takeHttp takeLed w = some (acts, w1))
    (hex : Action.exchange q k 0 c ∈ acts)
    (hled : takeLed = true) :
    (nfc_logCard pn w.nfc log_data_t.stack rid keyA).1 = 0 ∧
    acts =
      [Action.take Semaphore.httpSemaphore true,
        Action.exchange q k 0 c,
        Action.give Semaphore.httpSemaphore,
        Action.take Semaphore.indLedSemaphore true,
        Action.setIndicatorLed (if c = 100 then LED_GREEN else LED_RED),
        Action.delay 500,
        Action.setIndicatorLed LED_OFF,
        Action.give Semaphore.indLedSemaphore] := by
  subst hled
  unfold cardReadTask.iteration at hrun
  rcases hlog : nfc_logCard pn w.nfc log_data_t.stack rid keyA with ⟨r, logData, s1⟩
  rw [hlog] at hrun
  obtain ⟨qs, hq⟩ := nfc_logDataToApiString_isSome logData []
  have hk := nfc_arrayToApiString_eq none "rkey".toList rkey READER_KEY_LEN []
    (by decide) (by simp)
  simp only [hq, hk] at hrun
  by_cases hr : r ≠ 0
  · rw [if_pos hr] at hrun
    simp only [Option.some.injEq, Prod.mk.injEq] at hrun
    rw [← hrun.1] at hex
    simp at hex
  · rw [if_neg hr] at hrun
    have hr0 : r = 0 := by omega
    cases takeHttp
    · simp only [Bool.false_eq_true, if_false, Option.some.injEq, Prod.mk.injEq] at hrun
      rw [← hrun.1] at hex
      simp at hex
    · simp only [if_true] at hrun
      revert hrun
      rcases wifi_httpsExchangeData net w.net http_response_t.stack w.responseBuffer
        (some qs) (some _) with ⟨⟨err, resp, buffer⟩, n1⟩
      intro hrun
      simp only [] at hrun
      by_cases he : err ≠ 0
      · rw [if_pos he] at hrun
        simp only [Option.some.injEq, Prod.mk.injEq] at hrun
        rw [← hrun.1] at hex
        simp at hex
        omega
      · rw [if_neg he] at hrun
        simp only [if_true, Option.some.injEq, Prod.mk.injEq] at hrun
        rw [← hrun.1] at hex ⊢
        simp at hex
        obtain ⟨rfl, rfl, rfl, rfl⟩ := hex
        exact ⟨hr0, rfl⟩

/-- Two iterations on the card AA BB CC DD: the reply `"100 OK"` gives green, the reply
`"403 Denied"` gives red. -/
theorem cardReadTask_verdict_witness :
    cardReadTask.iteration Card.good.driver (HttpClient.replying "\"100 OK\"".toList) rkey0
        true true World.start
      = some (verdictActions 100 LED_GREEN,
          { nfc := (), net := (), responseBuffer := "\"100 OK\"".toList }) ∧
    verdictActions 100 LED_GREEN = verdictActions 100 (if 100 = 100 then LED_GREEN else LED_RED) ∧
    cardReadTask.iteration Card.good.driver (HttpClient.replying "\"403 Denied\"".toList)
        rkey0 true true World.start
      = some (verdictActions 403 LED_RED,
          { nfc := (), net := (), responseBuffer := "\"403 Denied\"".toList }) ∧
    verdictActions 403 LED_RED = verdictActions 403 (if 403 = 100 then LED_GREEN else LED_RED) :=
  ⟨by decide,
    (cardReadTask_verdict Card.good.driver (HttpClient.replying "\"100 OK\"".toList) rkey0
      true true World.start { nfc := (), net := (), responseBuffer := "\"100 OK\"".toList }
      (verdictActions 100 LED_GREEN) goodQuery rkey0Str 100 (by decide) (by decide) rfl).2,
    by decide,
    (cardReadTask_verdict Card.good.driver (HttpClient.replying "\"403 Denied\"".toList) rkey0
      true true World.start { nfc := (), net := (), responseBuffer := "\"403 Denied\"".toList }
      (verdictActions 403 LED_RED) goodQuery rkey0Str 403 (by decide) (by decide) rfl).2⟩

/-- C10 (battery hysteresis).  With `batteryWarningTask` run over a trace of samples
(`xSemaphoreTake` returning `pdTRUE`): the state after a sample is the step of the state
before it; from Normal the machine moves to Warning at a sample exactly when that sample
has `poweredExternally` false and `batteryCritical` true; from Warning it moves to Normal
at a sample exactly when that sample has `poweredExternally` true, whatever
`batteryCritical` is; so after entering Warning it is still in Warning after every
sample before the first one with `poweredExternally` true, and in Normal after that
one. -/
theorem batteryWarningTask_hysteresis :
    (∀ (st : BatteryState) (tr : List Sample) (s : Sample),
      (batteryWarningTask.run true st (tr ++ [s])).1
        = (batteryWarningTask.step true (batteryWarningTask.run true st tr).1 s).1) ∧
    (∀ s : Sample, (batteryWarningTask.step true BatteryState.Normal s).1 = BatteryState.Warning
      ↔ (s.poweredExternally = false ∧ s.batteryCritical = true)) ∧
    (∀ s : Sample, (batteryWarningTask.step true BatteryState.Warning s).1 = BatteryState.Normal
      ↔ s.poweredExternally = true) ∧
    (∀ (tr : List Sample) (s : Sample), (∀ x ∈ tr, x.poweredExternally = false) →
      s.poweredExternally = true →
      (∀ n, (batteryWarningTask.run true BatteryState.Warning (tr.take n)).1
          = BatteryState.Warning) ∧
      (batteryWarningTask.run true BatteryState.Warning (tr ++ [s])).1
          = BatteryState.Normal) := by
  refine ⟨fun st tr s => batteryWarningTask_run_append true tr st s, ?_, ?_, ?_⟩
  · rintro ⟨p, c⟩
    cases p <;> cases c <;> simp [batteryWarningTask.step]
  · rintro ⟨p, c⟩
    cases p <;> cases c <;> simp [batteryWarningTask.step]
  · intro tr s htr hs
    refine ⟨fun n => batteryWarningTask_stays_warning true _
      (fun x hx => htr x (List.mem_of_mem_take hx)), ?_⟩
    rw [batteryWarningTask_run_append, batteryWarningTask_stays_warning true tr htr]
    simp [batteryWarningTask.step, hs]

/-- Three sample traces: no entry while powered or not critical, entry when unpowered and
critical, exit at the first powered sample. -/
theorem batteryWarningTask_hysteresis_witness :
    (batteryWarningTask.run true BatteryState.Normal [⟨true, true⟩, ⟨false, false⟩]).1
      = BatteryState.Normal ∧
    (batteryWarningTask.run true BatteryState.Normal
      [⟨true, true⟩, ⟨false, false⟩, ⟨false, true⟩]).1 = BatteryState.Warning ∧
    (batteryWarningTask.run true BatteryState.Warning
      ([⟨false, true⟩, ⟨false, false⟩] ++ [⟨true, true⟩])).1 = BatteryState.Normal :=
  ⟨by decide,
    (batteryWarningTask_hysteresis.1 BatteryState.Normal [⟨true, true⟩, ⟨false, false⟩]
      ⟨false, true⟩).trans
      ((batteryWarningTask_hysteresis.2.1 ⟨false, true⟩).mpr ⟨rfl, rfl⟩),
    (batteryWarningTask_hysteresis.2.2.2 [⟨false, true⟩, ⟨false, false⟩] ⟨true, true⟩
      (by decide) rfl).2⟩

/-- C11 (mutual exclusion of the gates).  Take any interleaving `ex` of actions of
`cardReadTask`, `aliveTask` and `batteryWarningTask` in which each task does what its loop
can do, and any instant `n` such that the first `n` steps are allowed by the two binary
semaphores, both available at the start.  Then at that instant no semaphore is held by two
tasks, and if the next step is an exchange by a task, that task holds the channel gate and
no other task does, so that no other exchange is under way. -/
theorem gates_mutual_exclusion (ex : List (TaskId × Action))
    (htr : ∀ t, TaskTrace t (project t ex)) (n : Nat) (free : Gates)
    (hrun : semaphoreRun Gates.both (ex.take n) = some free) :
    (∀ s t1 t2, holds t1 s (ex.take n) → holds t2 s (ex.take n) → t1 = t2) ∧
    (∀ t q k err code, ex[n]? = some (t, Action.exchange q k err code) →
      holds t Semaphore.httpSemaphore (ex.take n) ∧
      ∀ t1, holds t1 Semaphore.httpSemaphore (ex.take n) → t1 = t) := by
  have hdef : ∀ t, ∃ g, Gates.run Gates.nothing (project t (ex.take n)) = some g :=
    fun t => TaskTrace_gates t _
      (TaskTrace_initial t _ _ (project_take_initial t ex n) (htr t))
  have hinit : Exclusive Gates.both (fun _ => Gates.nothing) := by
    intro s
    refine ⟨fun _ t => ?_, fun t1 t2 h1 _ => ?_⟩
    · cases s <;> rfl
    · cases s <;> exact absurd h1 (by simp [Gates.nothing, Gates.get])
  obtain ⟨h1, hh1, hex1⟩ := semaphoreRun_exclusive (ex.take n) Gates.both free
    (fun _ => Gates.nothing) hrun hdef hinit
  have huniq : ∀ s t1 t2, holds t1 s (ex.take n) → holds t2 s (ex.take n) → t1 = t2 := by
    intro s t1 t2 ⟨g1, hg1, hs1⟩ ⟨g2, hg2, hs2⟩
    rw [hh1 t1] at hg1
    rw [hh1 t2] at hg2
    simp only [Option.some.injEq] at hg1 hg2
    subst hg1 hg2
    exact (hex1 s).2 t1 t2 hs1 hs2
  refine ⟨huniq, ?_⟩
  intro t q k err code hn
  have hlt : n < ex.length := by
    by_contra hge
    rw [List.getElem?_eq_none (by omega)] at hn
    exact absurd hn (by simp)
  have hget : ex[n] = (t, Action.exchange q k err code) := by
    rw [List.getElem?_eq_getElem hlt] at hn
    exact Option.some.inj hn
  have hsplit : ex = ex.take n ++ (t, Action.exchange q k err code) :: ex.drop (n + 1) := by
    rw [← hget, ← List.drop_eq_getElem_cons hlt, List.take_append_drop]
  have hall := TaskTrace_exchanges t _ (htr t)
  rw [hsplit, project_append, project_cons_self] at hall
  have hpre : exchangesUnderGate Gates.nothing
      (project t (ex.take n) ++ [Action.exchange q k err code]) = true := by
    apply exchangesUnderGate_initial _ (project t (ex.drop (n + 1)))
    rw [List.append_assoc]
    exact hall
  rw [exchangesUnderGate_append _ _ _ _ (hh1 t)] at hpre
  simp only [exchangesUnderGate, Bool.and_true, Bool.and_eq_true] at hpre
  have hholds : holds t Semaphore.httpSemaphore (ex.take n) := ⟨h1 t, hh1 t, hpre.2⟩
  exact ⟨hholds, fun t1 ht1 => huniq _ t1 t ht1 hholds⟩

/-- In `sampleInterleaving`, when `cardReadTask` exchanges it is the only holder of the
channel gate, and a take of the channel gate by `aliveTask` at that instant is not a step
the semaphore allows. -/
theorem gates_mutual_exclusion_witness :
    semaphoreRun Gates.both (sampleInterleaving.take 2)
      = some { http := false, indLed := true } ∧
    (holds TaskId.cardReadTask Semaphore.httpSemaphore (sampleInterleaving.take 2) ∧
      ∀ t1, holds t1 Semaphore.httpSemaphore (sampleInterleaving.take 2) →
        t1 = TaskId.cardReadTask) ∧
    semaphoreRun Gates.both
        (sampleInterleaving.take 2 ++
          [(TaskId.aliveTask, Action.take Semaphore.httpSemaphore true)]) = none :=
  ⟨by decide,
    (gates_mutual_exclusion sampleInterleaving sampleInterleaving_traces
      2 { http := false, indLed := true } (by decide)).2
      TaskId.cardReadTask goodQuery rkey0Str 0 100 (by decide),
    by decide⟩

/-- C12 (balanced gate usage).  In every iteration of `cardReadTask` and of `aliveTask`,
for every driver, network, key, world and outcome of the semaphore calls, and in every run
of `batteryWarningTask` that starts and ends in its outer loop, the takes and gives of the
task are balanced: no gate is given that the task does not hold, no gate is taken again
while held, and after the last action the task holds no gate. -/
theorem gates_balanced :
    (∀ (σ ν : Type) (pn : Pn532 σ) (net : HttpClient ν) (rkey : List Nat)
        (takeHttp takeLed : Bool) (w w1 : World σ ν) (acts : List Action),
      cardReadTask.iteration pn net rkey takeHttp takeLed w = some (acts, w1) →
      Gates.run Gates.nothing acts = some Gates.nothing) ∧
    (∀ (σ ν : Type) (net : HttpClient ν) (rkey : List Nat) (takeHttp : Bool)
        (w w1 : World σ ν) (acts : List Action),
      aliveTask.iteration net rkey takeHttp w = some (acts, w1) →
      Gates.run Gates.nothing acts = some Gates.nothing) ∧
    (∀ xs : List (Bool × Sample),
      (batteryWarningTask.runWith BatteryState.Normal xs).1 = BatteryState.Normal →
      Gates.run Gates.nothing (batteryWarningTask.runWith BatteryState.Normal xs).2
        = some Gates.nothing) := by
  refine ⟨?_, ?_, ?_⟩
  · intro σ ν pn net rkey th tl w w1 acts h
    exact cardReadTask_iteration_balanced acts ⟨σ, ν, pn, net, rkey, th, tl, w, w1, h⟩
  · intro σ ν net rkey th w w1 acts h
    exact aliveTask_iteration_balanced acts ⟨σ, ν, net, rkey, th, w, w1, h⟩
  · intro xs h
    have := batteryWarningTask_runWith_gates xs BatteryState.Normal
    rw [h] at this
    exact this

/-- Balanced runs: the verdict iteration, the error iteration, and a battery episode. -/
theorem gates_balanced_witness :
    Gates.run Gates.nothing (verdictActions 100 LED_GREEN) = some Gates.nothing ∧
    Gates.run Gates.nothing errorFlashActions = some Gates.nothing ∧
    Gates.run Gates.nothing (batteryWarningTask.runWith BatteryState.Normal
      [(true, ⟨false, true⟩), (true, ⟨false, false⟩), (true, ⟨true, true⟩)]).2
        = some Gates.nothing :=
  ⟨gates_balanced.1 Unit Unit Card.good.driver (HttpClient.replying "\"100 OK\"".toList) rkey0
      true true World.start { nfc := (), net := (), responseBuffer := "\"100 OK\"".toList }
      (verdictActions 100 LED_GREEN) (by decide),
    gates_balanced.1 Unit Unit Card.good.driver HttpClient.failing rkey0
      true true World.start World.start errorFlashActions (by decide),
    gates_balanced.2.2 [(true, ⟨false, true⟩), (true, ⟨false, false⟩), (true, ⟨true, true⟩)]
      (by decide)⟩

/-- C13: a failing key derivation does not halt start-up.  For every mbedtls and seed,
when Wi-Fi and the PN532 are set up, `app_main` goes on after `generateReaderKey`,
whatever it returned, to create the two semaphores and the three tasks; with an mbedtls
whose `mbedtls_md_setup` fails, `generateReaderKey` returns 2, the reader key stays 32
zero bytes and the tasks are created all the same, so that `cardReadTask` reports with the
key string of 64 zeros. -/
theorem app_main_ignores_key_error :
    (∀ (md : MbedTls) (seed : List Char),
      (app_main md seed true true).1 =
        [BootAction.gpio_setup, BootAction.wifi_setup, BootAction.nfc_setup,
          BootAction.generateReaderKey
            (generateReaderKey md rid seed (List.replicate READER_KEY_LEN 0)).1,
          BootAction.printReaderKeyInfo,
          BootAction.semaphoreCreateBinary Semaphore.httpSemaphore,
          BootAction.semaphoreCreateBinary Semaphore.indLedSemaphore,
          BootAction.taskCreate TaskId.cardReadTask,
          BootAction.taskCreate TaskId.aliveTask,
          BootAction.taskCreate TaskId.batteryWarningTask]) ∧
    (generateReaderKey MbedTls.setupFails rid "seed\n".toList
        (List.replicate READER_KEY_LEN 0)).1 = 2 ∧
    BootAction.taskCreate TaskId.cardReadTask ∈
      (app_main MbedTls.setupFails "seed\n".toList true true).1 ∧
    (app_main MbedTls.setupFails "seed\n".toList true true).2 = List.replicate 32 0 ∧
    (cardReadTask.iteration Card.good.driver (HttpClient.replying "\"100 OK\"".toList)
        (app_main MbedTls.setupFails "seed\n".toList true true).2 true true World.start).map
        (fun r => r.1.take 2)
      = some [Action.take Semaphore.httpSemaphore true,
          Action.exchange goodQuery ("rkey=0x".toList ++ List.replicate 64 '0') 0 100] ∧
    (app_main MbedTls.setupFails "seed\n".toList true false).1 =
      [BootAction.gpio_setup, BootAction.wifi_setup, BootAction.nfc_setup] := by
  exact ⟨fun md seed => rfl, by decide, by decide, by decide, by decide, by decide⟩

/-- C14, as stated, fails: when the exchange completes (transport OK, HTTP 200) with the
malformed body `garbage`, the iteration of `cardReadTask` sets the indicator to red. -/
theorem cardReadTask_malformed_writes_indicator :
    wifi_parseApiCode "garbage".toList = UINT32_MINUS_ONE ∧
    cardReadTask.iteration Card.good.driver (HttpClient.replying "garbage".toList) rkey0
        true true World.start
      = some (verdictActions 4294967295 LED_RED,
          { nfc := (), net := (), responseBuffer := "garbage".toList }) ∧
    Action.setIndicatorLed LED_RED ∈ verdictActions 4294967295 LED_RED := by
  decide

/-- C14, amended.  Take an iteration of `cardReadTask` in which the pipeline succeeds with
the record `logData`, and in which the one call of the client made by the exchange of that
iteration (on the URL of the record, with the key string, in the state and on the buffer
of that instant) completes with transport OK and HTTP status 200 and leaves a malformed
body.  Then the task shows the verdict of a denied access: under the indicator gate it
sets the indicator to red, waits 500 ms and sets it to off.  Nothing is assumed of what
the client answers to any other call.  In every iteration of `aliveTask`, whatever the
exchange outcome, the task performs no write to the indicator. -/
theorem malformed_shows_red_and_alive_is_silent :
    (∀ (σ ν : Type) (pn : Pn532 σ) (net : HttpClient ν) (rkey : List Nat) (w : World σ ν)
        (logData : log_data_t) (s1 : σ) (queryStr rkeyStr buffer : List Char) (n1 : ν),
      nfc_logCard pn w.nfc log_data_t.stack rid keyA = (0, logData, s1) →
      nfc_logDataToApiString logData [] = some queryStr →
      nfc_arrayToApiString none "rkey".toList rkey READER_KEY_LEN [] = some rkeyStr →
      net.perform w.net (SERVER_ADDR ++ queryStr) (some rkeyStr) w.responseBuffer
        = ((ESP_OK, 200, buffer), n1) →
      wifi_parseApiCode buffer = UINT32_MINUS_ONE →
      cardReadTask.iteration pn net rkey true true w = some
        ([Action.take Semaphore.httpSemaphore true,
          Action.exchange queryStr rkeyStr 0 4294967295,
          Action.give Semaphore.httpSemaphore,
          Action.take Semaphore.indLedSemaphore true,
          Action.setIndicatorLed LED_RED,
          Action.delay 500,
          Action.setIndicatorLed LED_OFF,
          Action.give Semaphore.indLedSemaphore],
          { nfc := s1, net := n1, responseBuffer := buffer })) ∧
    (∀ (σ ν : Type) (net : HttpClient ν) (rkey : List Nat) (takeHttp : Bool)
        (w w1 : World σ ν) (acts : List Action),
      aliveTask.iteration net rkey takeHttp w = some (acts, w1) →
      ∀ state, Action.setIndicatorLed state ∉ acts) := by
  refine ⟨?_, ?_⟩
  · intro σ ν pn net rkey w logData s1 queryStr rkeyStr buffer n1 hlog hq hk hp hmal
    have hx := wifi_httpsExchangeData_of_perform net w.net n1 http_response_t.stack
      w.responseBuffer buffer queryStr rkeyStr ESP_OK 200
      (nfc_logDataToApiString_ne_nil logData [] queryStr hq)
      (nfc_arrayToApiString_ne_nil "rkey".toList rkey READER_KEY_LEN [] rkeyStr
        (by decide) hk) hp
    have hparse : wifi_parseResponse http_response_t.stack 200 buffer ESP_OK
        = (0, { apiCode := 4294967295, apiMessage := UNREADABLE }) := by
      simp [wifi_parseResponse, hmal, UINT32_MINUS_ONE]
    rw [hparse] at hx
    unfold cardReadTask.iteration
    simp only [hlog, hq, hk, hx]
    rfl
  · intro σ ν net rkey th w w1 acts h state
    rcases aliveTask_iteration_cases net rkey th w w1 acts h with rfl | ⟨q, k, err, code, rfl⟩
    · simp
    · simp

/-- An iteration over a network that answers `garbage` to its first request only, and a
liveness report. -/
theorem malformed_shows_red_and_alive_is_silent_witness :
    cardReadTask.iteration Card.good.driver HttpClient.garbageOnce rkey0 true true
        World.fresh = some
        ([Action.take Semaphore.httpSemaphore true,
          Action.exchange goodQuery rkey0Str 0 4294967295,
          Action.give Semaphore.httpSemaphore,
          Action.take Semaphore.indLedSemaphore true,
          Action.setIndicatorLed LED_RED,
          Action.delay 500,
          Action.setIndicatorLed LED_OFF,
          Action.give Semaphore.indLedSemaphore],
          { nfc := (), net := true, responseBuffer := "garbage".toList }) ∧
    Action.setIndicatorLed LED_RED ∉
      [Action.delay 10000, Action.take Semaphore.httpSemaphore true,
        Action.exchange aliveQuery rkey0Str 0 200, Action.give Semaphore.httpSemaphore] :=
  ⟨malformed_shows_red_and_alive_is_silent.1 Unit Bool Card.good.driver
      HttpClient.garbageOnce rkey0 World.fresh Card.goodRecord () goodQuery rkey0Str
      "garbage".toList true (by decide) (by decide) (by decide) (by decide) (by decide),
    malformed_shows_red_and_alive_is_silent.2 Unit Unit
      (HttpClient.replying "\"200 OK\"".toList) rkey0 true World.start
      { nfc := (), net := (), responseBuffer := "\"200 OK\"".toList } _ (by decide) LED_RED⟩

/-- C15: the error path writes the indicator without the gate.  In the iteration of
`cardReadTask` whose exchange fails, the task has given the channel gate and holds no gate
when it sets the indicator to red (its fourth action) for the double flash, whereas the
verdict path of the same task takes the indicator gate before its writes. -/
theorem cardReadTask_error_flash_without_gate :
    cardReadTask.iteration Card.good.driver HttpClient.failing rkey0 true true World.start
      = some (errorFlashActions, World.start) ∧
    Gates.run Gates.nothing (errorFlashActions.take 3) = some Gates.nothing ∧
    errorFlashActions.drop 3 =
      [Action.setIndicatorLed LED_RED, Action.delay 200,
        Action.setIndicatorLed LED_OFF, Action.delay 100,
        Action.setIndicatorLed LED_RED, Action.delay 200,
        Action.setIndicatorLed LED_OFF] ∧
    ledWritesUnderGate Gates.nothing errorFlashActions = false ∧
    ledWritesUnderGate Gates.nothing (verdictActions 100 LED_GREEN) = true := by
  decide

/-- C16 (framed three-digit responses decode exactly).  For every response text made of
one character `c0`, three decimal digits `a`, `b`, `c`, one space, a message `m` and one
character `c1`, `wifi_parseResponse` with transport OK and HTTP status 200 returns 0, sets
`apiCode` to the decimal value of the three digits and `apiMessage` to `m`, the text from
index 5 without its last character.  The last character is removed only when
`wifi_parseApiCode` did not return the sentinel, hence only for a text of length at least
6, and for such a text the message copied from index 5 has at least one character. -/
theorem wifi_parseResponse_framed_three_digits (response : http_response_t)
    (c0 c1 a b c : Char) (m : List Char)
    (ha : isdigit a = true) (hb : isdigit b = true) (hc : isdigit c = true) :
    wifi_parseResponse response 200 ([c0] ++ [a, b, c] ++ [' '] ++ m ++ [c1]) ESP_OK
      = (0, { apiCode := 100 * (a.toNat - 48) + 10 * (b.toNat - 48) + (c.toNat - 48),
              apiMessage := m }) ∧
    (([c0] ++ [a, b, c] ++ [' '] ++ m ++ [c1]).drop 5).dropLast = m ∧
    (∀ buffer : List Char, wifi_parseApiCode buffer ≠ UINT32_MINUS_ONE →
      6 ≤ buffer.length) ∧
    (∀ buffer : List Char, 6 ≤ buffer.length → 1 ≤ (buffer.drop 5).length) := by
  have hda : 48 ≤ a.toNat ∧ a.toNat ≤ 57 := by simpa [isdigit] using ha
  have hdb : 48 ≤ b.toNat ∧ b.toNat ≤ 57 := by simpa [isdigit] using hb
  have hdc : 48 ≤ c.toNat ∧ c.toNat ≤ 57 := by simpa [isdigit] using hc
  have hs := strtol_number [] [a, b, c] (' ' :: (m ++ [c1])) false []
    (by simp) (Or.inr ⟨rfl, Or.inr rfl⟩) (by simp)
    (by intro x hx; simp at hx; rcases hx with rfl | rfl | rfl <;> assumption)
    (by rw [List.headD_cons]; decide)
  have hval : strtol.value [a, b, c]
      = 100 * (a.toNat - 48) + 10 * (b.toNat - 48) + (c.toNat - 48) := by
    simp only [strtol.value, List.foldl_cons, List.foldl_nil]
    omega
  have hdrop : ([c0] ++ [a, b, c] ++ [' '] ++ m ++ [c1]).drop 1
      = [] ++ [] ++ [a, b, c] ++ ' ' :: (m ++ [c1]) := by simp
  have hlen : ¬ ([c0] ++ [a, b, c] ++ [' '] ++ m ++ [c1]).length < 6 := by simp
  have hcode : wifi_parseApiCode ([c0] ++ [a, b, c] ++ [' '] ++ m ++ [c1])
      = 100 * (a.toNat - 48) + 10 * (b.toNat - 48) + (c.toNat - 48) := by
    unfold wifi_parseApiCode
    rw [if_neg hlen, hdrop, hs, hval]
    simp only [List.headD_cons, if_true, Bool.false_eq_true, if_false]
    have : max LONG_MIN (min LONG_MAX
        ((100 * (a.toNat - 48) + 10 * (b.toNat - 48) + (c.toNat - 48) : Nat) : Int))
        = ((100 * (a.toNat - 48) + 10 * (b.toNat - 48) + (c.toNat - 48) : Nat) : Int) := by
      unfold LONG_MIN LONG_MAX; omega
    rw [this]
    omega
  have hmsg : (([c0] ++ [a, b, c] ++ [' '] ++ m ++ [c1]).drop 5).dropLast = m := by simp
  refine ⟨?_, hmsg, ?_, ?_⟩
  · have hne : 100 * (a.toNat - 48) + 10 * (b.toNat - 48) + (c.toNat - 48)
        ≠ UINT32_MINUS_ONE := by unfold UINT32_MINUS_ONE; omega
    simp only [wifi_parseResponse, hcode, hmsg, ESP_OK, if_true, ne_eq, not_true, if_false,
      hne, not_false_eq_true]
  · intro buffer hne
    by_contra hlt
    apply hne
    simp [wifi_parseApiCode, Nat.lt_of_not_le hlt]
  · intro buffer hlen6
    simp only [List.length_drop]
    omega

/-- The quoted body `"007 James"` decodes to 7 and `James`. -/
theorem wifi_parseResponse_framed_three_digits_witness :
    wifi_parseResponse http_response_t.stack 200
        (['"'] ++ ['0', '0', '7'] ++ [' '] ++ "James".toList ++ ['"']) ESP_OK
      = (0, { apiCode := 7, apiMessage := "James".toList }) :=
  (wifi_parseResponse_framed_three_digits http_response_t.stack '"' '"' '0' '0' '7'
    "James".toList (by decide) (by decide) (by decide)).1

/-- C17, as stated, fails: in `x-1 abc` the characters from index 1 are the number `-1`
followed by a space; `strtol` returns -1, which converted to `uint32_t` is the sentinel,
and `wifi_parseResponse` replaces the message by the placeholder. -/
theorem wifi_parseApiCode_minus_one :
    "x-1 abc".toList = ['x'] ++ [] ++ ['-'] ++ ['1'] ++ ' ' :: "abc".toList ∧
    6 ≤ "x-1 abc".toList.length ∧
    strtol "-1 abc".toList = (-1, " abc".toList) ∧
    wifi_parseApiCode "x-1 abc".toList = UINT32_MINUS_ONE ∧
    wifi_parseResponse http_response_t.stack 200 "x-1 abc".toList ESP_OK
      = (0, { apiCode := 4294967295, apiMessage := "Ureadable response".toList }) := by
  decide

/-- C17, amended.  For every response text of length at least 6 in which the characters
from index 1 form a decimal number accepted by `strtol` (optional white space, an optional
sign, a non-empty digit sequence) immediately followed by a space, `wifi_parseApiCode`
returns the sentinel exactly when the number is -1 (the sign is `-` and the digits have
the value 1); for every other number the value returned is not the sentinel and
`wifi_parseResponse` stores the text from index 5 without its last character as the
message. -/
theorem wifi_parseApiCode_sentinel_iff (response : http_response_t) (c0 : Char)
    (ws sgn ds rest : List Char)
    (hws : ∀ x ∈ ws, isspace x = true) (hsgn : sgn = [] ∨ sgn = ['+'] ∨ sgn = ['-'])
    (hne : ds ≠ []) (hds : ∀ x ∈ ds, isdigit x = true)
    (hlen : 6 ≤ ([c0] ++ ws ++ sgn ++ ds ++ ' ' :: rest).length) :
    (wifi_parseApiCode ([c0] ++ ws ++ sgn ++ ds ++ ' ' :: rest) = UINT32_MINUS_ONE ↔
      (sgn = ['-'] ∧ strtol.value ds = 1)) ∧
    (¬ (sgn = ['-'] ∧ strtol.value ds = 1) →
      (wifi_parseResponse response 200 ([c0] ++ ws ++ sgn ++ ds ++ ' ' :: rest) ESP_OK).2
        = { apiCode := wifi_parseApiCode ([c0] ++ ws ++ sgn ++ ds ++ ' ' :: rest),
            apiMessage := (([c0] ++ ws ++ sgn ++ ds ++ ' ' :: rest).drop 5).dropLast }) := by
  have hr : isdigit ((' ' :: rest).headD NUL) = false := by rw [List.headD_cons]; decide
  have hdrop : ([c0] ++ ws ++ sgn ++ ds ++ ' ' :: rest).drop 1
      = ws ++ sgn ++ ds ++ ' ' :: rest := by simp
  have hl : ¬ ([c0] ++ ws ++ sgn ++ ds ++ ' ' :: rest).length < 6 := by omega
  have key : wifi_parseApiCode ([c0] ++ ws ++ sgn ++ ds ++ ' ' :: rest) = UINT32_MINUS_ONE ↔
      (sgn = ['-'] ∧ strtol.value ds = 1) := by
    unfold wifi_parseApiCode
    rw [if_neg hl, hdrop]
    rcases hsgn with rfl | rfl | rfl
    · rw [strtol_number ws ds (' ' :: rest) false [] hws (Or.inr ⟨rfl, Or.inr rfl⟩) hne hds hr]
      simp only [List.headD_cons, if_true, Bool.false_eq_true, if_false]
      unfold LONG_MIN LONG_MAX UINT32_MINUS_ONE
      constructor
      · intro h; exfalso; omega
      · intro h; exact absurd h.1 (by simp)
    · rw [strtol_number ws ds (' ' :: rest) false ['+'] hws (Or.inr ⟨rfl, Or.inl rfl⟩)
        hne hds hr]
      simp only [List.headD_cons, if_true, Bool.false_eq_true, if_false]
      unfold LONG_MIN LONG_MAX UINT32_MINUS_ONE
      constructor
      · intro h; exfalso; omega
      · intro h; exact absurd h.1 (by simp)
    · rw [strtol_number ws ds (' ' :: rest) true ['-'] hws (Or.inl ⟨rfl, rfl⟩) hne hds hr]
      simp only [List.headD_cons, if_true]
      unfold LONG_MIN LONG_MAX UINT32_MINUS_ONE
      constructor
      · intro h; exact ⟨trivial, by omega⟩
      · intro h; rw [h.2]; decide
  refine ⟨key, ?_⟩
  intro hnot
  have hcode : wifi_parseApiCode ([c0] ++ ws ++ sgn ++ ds ++ ' ' :: rest)
      ≠ UINT32_MINUS_ONE := fun h => hnot (key.mp h)
  simp only [wifi_parseResponse, ESP_OK, if_true, ne_eq, not_true, if_false, hcode,
    not_false_eq_true]

/-- The body `x-5 abc` holds the number -5: the code is 4294967291, not the sentinel. -/
theorem wifi_parseApiCode_sentinel_iff_witness :
    wifi_parseApiCode "x-5 abc".toList ≠ UINT32_MINUS_ONE ∧
    wifi_parseApiCode "x-5 abc".toList = 4294967291 :=
  ⟨fun h => absurd (((wifi_parseApiCode_sentinel_iff http_response_t.stack 'x' [] ['-']
      ['5'] "abc".toList (by decide) (Or.inr (Or.inr rfl)) (by decide) (by decide)
      (by decide)).1).mp h).2 (by decide),
    by decide⟩

/-- C18: the reader-key string does not fit.  For every reader key, the call
`nfc_arrayToApiString(NULL, "rkey", rkey, READER_KEY_LEN, rkeyStr)` of `cardReadTask` and
`aliveTask` writes 72 bytes (4 for the key, 3 for `=0x`, 64 digits and the NUL), one more
than the `READER_KEY_LEN*2+7 = 71` bytes of `rkeyStr`.  The liveness query takes 23 bytes
of the 23 of its array and the full record string 118 of `MAX_HTTP_URL_BUFFER`. -/
theorem rkeyStr_overflow :
    (∀ (rkey : List Nat) (dst : List Char),
      (nfc_arrayToApiString none "rkey".toList rkey READER_KEY_LEN dst).map
        (fun s => s.length + 1) = some 72) ∧
    READER_KEY_LEN * 2 + 7 = 71 ∧
    0 + "rkey".toList.length + 3 + 2 * READER_KEY_LEN + 1 = 72 ∧
    (∀ dst : List Char,
      (nfc_arrayToApiString none "rid".toList rid READER_ID_LEN dst).map
        (fun s => s.length + 1) = some 23) ∧
    READER_ID_LEN * 2 + 7 = 23 ∧
    (∀ (logData : log_data_t) (dst : List Char),
      ∃ out, nfc_logDataToApiString logData dst = some out ∧ out.length + 1 = 118) ∧
    118 ≤ MAX_HTTP_URL_BUFFER := by
  refine ⟨?_, by decide, by decide, ?_, by decide, ?_, by decide⟩
  · intro rkey dst
    rw [nfc_arrayToApiString_length none _ _ _ _ (by decide) (by simp)]
    rfl
  · intro dst
    rw [nfc_arrayToApiString_length none _ _ _ _ (by decide) (by simp)]
    rfl
  · intro logData dst
    have k1 : '%' ∉ "rid".toList := by decide
    have k2 : '%' ∉ "cid".toList := by decide
    have k3 : '%' ∉ "data".toList := by decide
    have hex := hexOf_no_percent
    simp only [nfc_logDataToApiString, bind, Option.bind]
    rw [nfc_arrayToApiString_eq none _ _ _ _ k1 (by simp)]
    simp only []
    rw [nfc_arrayToApiString_eq (some _) _ _ _ _ k2 (by
      intro p hp; cases hp
      simp only [prefixAmp, List.mem_append, not_or, List.nil_append]
      exact ⟨⟨by decide, by decide⟩, hex _⟩)]
    simp only []
    rw [nfc_arrayToApiString_eq (some _) _ _ _ _ k3 (by
      intro p hp; cases hp
      simp only [prefixAmp, List.mem_append, not_or, List.nil_append]
      exact ⟨⟨⟨⟨⟨⟨by decide, by decide⟩, hex _⟩, by decide⟩, by decide⟩, by decide⟩, hex _⟩)]
    refine ⟨_, rfl, ?_⟩
    simp [prefixAmp, hexOf_length, firstN_length, READER_ID_LEN, CARD_ID_LEN, CARD_DATA_LEN]

end NfcReader
